import Mathlib

/-
  vidbrot: the capture-buffer manager `vid_capture` of src/vidbrot.cpp and the
  frame acquisition section of `display`, embedded as pure functions.

  The device driver and the C library are the environment.  Every system call
  of the program takes its outcome from a per-call-kind script held in `World`
  and appends what it asked for to `World.log`.  A call that finds its script
  empty never returns (`Res.blocked`).  `FAIL` / `errno_exit` end the process
  with `exit( 1 )`; that is `Res.fatal 1`, which keeps the object and the world
  as they were at the exit.
-/

namespace Vidbrot

/-! Constants of <errno.h>, <sys/mman.h> and <linux/videodev2.h>. -/

def EINTR : Nat := 4
def EIO : Nat := 5
def EAGAIN : Nat := 11
def EINVAL : Nat := 22
/-- The null pointer. -/
def NULL : Nat := 0
/-- The value `(void *) -1` on a 64-bit target. -/
def MAP_FAILED : Nat := 18446744073709551615
def V4L2_CAP_VIDEO_CAPTURE : Nat := 0x00000001
def V4L2_CAP_STREAMING : Nat := 0x04000000
def V4L2_BUF_TYPE_VIDEO_CAPTURE : Nat := 1
def V4L2_MEMORY_MMAP : Nat := 1
def V4L2_FIELD_INTERLACED : Nat := 4
/-- The fourcc code of 'Y','U','Y','V'. -/
def V4L2_PIX_FMT_YUYV : Nat := 0x56595559

/-! Machine integers. -/

/-- Conversion of an `int` to `unsigned int` (32 bits). -/
def u32 (x : Int) : Nat := (x % 4294967296).toNat

/-- Conversion of an `unsigned int` to `int` (32 bits, two's complement). -/
def toInt32 (x : Nat) : Int :=
  if x % 4294967296 < 2147483648 then ((x % 4294967296 : Nat) : Int)
  else ((x % 4294967296 : Nat) : Int) - 4294967296

/-! Data model. -/

/-- The fields of `struct v4l2_buffer` the program reads or writes. -/
structure v4l2_buffer where
  index : Nat
  type : Nat
  memory : Nat
  length : Nat
  offset : Nat
deriving DecidableEq, Repr

/-- One entry of the buffer table: `struct buffer`. A pointer is its address. -/
structure buffer where
  start : Nat
  length : Nat
  info : v4l2_buffer
deriving DecidableEq, Repr

/-- The fields `fmt.fmt.pix` of `struct v4l2_format` (all `__u32`). -/
structure v4l2_pix_format where
  width : Nat
  height : Nat
  pixelformat : Nat
  field : Nat
  bytesperline : Nat
  sizeimage : Nat
deriving DecidableEq, Repr

/-- The member `fmt` of the class: its type tag and `fmt.pix`. -/
structure v4l2_format where
  type : Nat
  pix : v4l2_pix_format
deriving DecidableEq, Repr

/-- The object state of `class vid_capture`. The array `buffers` is a list; it
is allocated with `n_buffers` entries and no method changes its length. -/
structure vid_capture where
  fd : Int
  n_buffers : Nat
  buffers : List buffer
  fmt : v4l2_format
deriving DecidableEq, Repr

/-- One raw outcome of a system call: return value, `errno`, and what the
callee stored in the argument it was given. -/
structure Ret (α : Type) where
  r : Int
  errno : Nat
  out : α
deriving DecidableEq, Repr

/-- What the program asked of its environment, in program order. An `xioctl`
call is one entry (its retries after EINTR repeat the same request). -/
inductive Event where
  | VIDIOC_QUERYCAP
  | VIDIOC_CROPCAP
  | VIDIOC_S_CROP
  | VIDIOC_S_FMT (width height pixelformat field : Nat)
  | VIDIOC_REQBUFS (count : Nat)
  | VIDIOC_QUERYBUF (arg : v4l2_buffer)
  | VIDIOC_QBUF (arg : v4l2_buffer)
  | VIDIOC_DQBUF
  | VIDIOC_STREAMON
  | VIDIOC_STREAMOFF
  | mmap (length offset : Nat)
  | munmap (start length : Nat)
  | select (tv_sec tv_usec : Nat)
  | memcpy (frameid : Int) (src : Nat) (n : Int)
  | release (i : Int)
deriving DecidableEq, Repr

/-- The environment: the scripted outcomes of each kind of call, the word that
lies where `buffers[n_buffers].start` would be (one entry past the array, never
written by the class), and the log of requests made so far. -/
structure World where
  querycap : List (Ret Nat)
  cropcap : List (Ret Unit)
  s_crop : List (Ret Unit)
  s_fmt : List (Ret v4l2_pix_format)
  reqbufs : List (Ret Nat)
  querybuf : List (Ret (Nat × Nat))
  mmap : List Nat
  qbuf : List (Ret Unit)
  dqbuf : List (Ret Nat)
  streamon : List (Ret Unit)
  streamoff : List (Ret Unit)
  select : List (Ret Unit)
  past_end : Nat
  log : List Event
deriving DecidableEq, Repr

/-- The diagnostic printed by a fatal path (the message, without the errno text). -/
inductive Diag where
  | not_a_linux_video_device
  | not_a_video_capture_device
  | no_streaming
  | YUYV_unsupported
  | no_memory_mapping
  | insufficient_buffer_memory (count : Nat)
  | buffer_out_of_range (index : Nat)
  | errno_VIDIOC_QUERYCAP
  | errno_VIDIOC_S_FMT
  | errno_VIDIOC_REQBUFS
  | errno_VIDIOC_QUERYBUF
  | errno_mmap
  | errno_VIDIOC_QBUF
  | errno_VIDIOC_DQBUF
  | errno_VIDIOC_STREAMON
  | errno_VIDIOC_STREAMOFF
  | errno_select
deriving DecidableEq, Repr

/-- The outcome of running a method. -/
inductive Res (α : Type) where
  | ok (a : α) (s : vid_capture) (w : World)
  | fatal (status : Nat) (d : Diag) (s : vid_capture) (w : World)
  | undefined
  | blocked
deriving DecidableEq, Repr

/-- The macro `FAIL(x)`: print the diagnostic and `exit( 1 )`. -/
def FAIL {α : Type} (d : Diag) (s : vid_capture) (w : World) : Res α :=
  Res.fatal 1 d s w

/-- The representation invariant the constructor establishes: the array has
`n_buffers` entries and `n_buffers` is a non-negative `int`. -/
def vid_capture.wf (s : vid_capture) : Prop :=
  s.buffers.length = s.n_buffers ∧ s.n_buffers < 2147483648

instance (s : vid_capture) : Decidable s.wf := by
  unfold vid_capture.wf; infer_instance

/-! The class `vid_capture`. -/

/-- The test of the retry loop in `xioctl`: `(-1 == r) && (EINTR == errno)`. -/
def isEINTR {α : Type} (x : Ret α) : Bool :=
  decide (x.r = -1) && decide (x.errno = EINTR)

/-- The retry loop of `xioctl` over the scripted outcomes of one request kind:
the first outcome that is not an EINTR failure, and the outcomes left over. -/
def xioctl {α : Type} : List (Ret α) → Option (Ret α × List (Ret α))
  | [] => none
  | x :: rest => if isEINTR x then xioctl rest else some (x, rest)

def zero_info : v4l2_buffer :=
  { index := 0, type := 0, memory := 0, length := 0, offset := 0 }

/-- A table entry after `clear`. -/
def zero_buffer : buffer :=
  { start := NULL, length := 0, info := zero_info }

def zero_fmt : v4l2_format :=
  { type := 0,
    pix := { width := 0, height := 0, pixelformat := 0, field := 0,
             bytesperline := 0, sizeimage := 0 } }

/-- The constructor `vid_capture( int n_buffers )`; `new buffer[n_buffers]`
needs a non-negative count. -/
def vid_capture.construct (n_buffers : Nat) : vid_capture :=
  { fd := -1, n_buffers := n_buffers,
    buffers := List.replicate n_buffers zero_buffer, fmt := zero_fmt }

/-- The descriptor `start()` and `map()` build in `buffers[i].info` before the ioctl. -/
def fresh_info (i : Nat) : v4l2_buffer :=
  { index := i, type := V4L2_BUF_TYPE_VIDEO_CAPTURE, memory := V4L2_MEMORY_MMAP,
    length := 0, offset := 0 }

/-- The lines "buggy driver paranoia" of `init()`: `min` is an `unsigned int`,
so both products are taken modulo 2^32. -/
def paranoia (p : v4l2_pix_format) : v4l2_pix_format :=
  let min1 := (p.width * 2) % 4294967296
  let bpl := if p.bytesperline < min1 then min1 else p.bytesperline
  let min2 := (bpl * p.height) % 4294967296
  let size := if p.sizeimage < min2 then min2 else p.sizeimage
  { p with bytesperline := bpl, sizeimage := size }

namespace vid_capture

/-- The method `init( width, height )`. -/
def init (s : vid_capture) (w : World) (width height : Int) : Res Unit :=
  match xioctl w.querycap with
  | none => Res.blocked
  | some (cap, qrest) =>
    let w1 := { w with querycap := qrest, log := w.log ++ [Event.VIDIOC_QUERYCAP] }
    if cap.r = -1 then
      (if cap.errno = EINVAL then FAIL Diag.not_a_linux_video_device s w1
       else FAIL Diag.errno_VIDIOC_QUERYCAP s w1)
    else if Nat.land cap.out V4L2_CAP_VIDEO_CAPTURE = 0 then
      FAIL Diag.not_a_video_capture_device s w1
    else if Nat.land cap.out V4L2_CAP_STREAMING = 0 then
      FAIL Diag.no_streaming s w1
    else
      match xioctl w1.cropcap with
      | none => Res.blocked
      | some (cc, ccrest) =>
        let w2 := { w1 with cropcap := ccrest, log := w1.log ++ [Event.VIDIOC_CROPCAP] }
        let crop : Option World :=
          if cc.r = 0 then
            match xioctl w2.s_crop with
            | none => none
            | some (_, screst) =>
              some { w2 with s_crop := screst, log := w2.log ++ [Event.VIDIOC_S_CROP] }
          else some w2
        match crop with
        | none => Res.blocked
        | some w3 =>
          let req : v4l2_format :=
            { type := V4L2_BUF_TYPE_VIDEO_CAPTURE,
              pix := { width := u32 width, height := u32 height,
                       pixelformat := V4L2_PIX_FMT_YUYV, field := V4L2_FIELD_INTERLACED,
                       bytesperline := 0, sizeimage := 0 } }
          match xioctl w3.s_fmt with
          | none => Res.blocked
          | some (f, frest) =>
            let w4 := { w3 with s_fmt := frest,
                                log := w3.log ++ [Event.VIDIOC_S_FMT (u32 width) (u32 height)
                                  V4L2_PIX_FMT_YUYV V4L2_FIELD_INTERLACED] }
            if f.r = -1 then FAIL Diag.errno_VIDIOC_S_FMT { s with fmt := req } w4
            else
              let s1 := { s with fmt := { type := V4L2_BUF_TYPE_VIDEO_CAPTURE, pix := f.out } }
              if f.out.pixelformat ≠ V4L2_PIX_FMT_YUYV then FAIL Diag.YUYV_unsupported s1 w4
              else
                Res.ok ()
                  { s with fmt := { type := V4L2_BUF_TYPE_VIDEO_CAPTURE,
                                    pix := paranoia f.out } }
                  w4

def width (s : vid_capture) : Int := toInt32 s.fmt.pix.width
def height (s : vid_capture) : Int := toInt32 s.fmt.pix.height
def bytesperline (s : vid_capture) : Int := toInt32 s.fmt.pix.bytesperline
def bytesperframe (s : vid_capture) : Int := toInt32 s.fmt.pix.sizeimage

/-- The loop of `unmap()`: `todo` iterations remain, the next index is `i`. -/
def unmap_loop : Nat → Nat → vid_capture → World → vid_capture × World
  | 0, _, s, w => (s, w)
  | todo + 1, i, s, w =>
    let b := s.buffers.getD i zero_buffer
    if b.length > 0 then
      unmap_loop todo (i + 1)
        { s with buffers := s.buffers.set i { b with start := NULL, length := 0 } }
        { w with log := w.log ++ [Event.munmap b.start b.length] }
    else unmap_loop todo (i + 1) s w

/-- The method `unmap()`. -/
def unmap (s : vid_capture) (w : World) : vid_capture × World :=
  unmap_loop s.n_buffers 0 s w

/-- The loop of `map()` over `i < req.count`: `todo` iterations remain, the next
index is `i`. A store to `buffers[i]` with `i >= n_buffers` lies outside the
array (`Res.undefined`). The test after `mmap` reads `buffers[n_buffers].start`,
the word `World.past_end`. VIDIOC_QUERYBUF is taken to fill in `length` and
`m.offset` of the descriptor and to leave `index`, `type` and `memory` as
passed. Leaving the loop, `map()` ends without a `return` statement; its
caller ignores the value. -/
def map_loop : Nat → Nat → vid_capture → World → Res Unit
  | 0, _, s, w => Res.ok () s w
  | todo + 1, i, s, w =>
    if s.n_buffers ≤ i then Res.undefined
    else
      let b := s.buffers.getD i zero_buffer
      let s1 := { s with buffers := s.buffers.set i { b with info := fresh_info i } }
      match xioctl w.querybuf with
      | none => Res.blocked
      | some (q, qrest) =>
        let w1 := { w with querybuf := qrest,
                           log := w.log ++ [Event.VIDIOC_QUERYBUF (fresh_info i)] }
        if q.r = -1 then FAIL Diag.errno_VIDIOC_QUERYBUF s1 w1
        else
          let info := { fresh_info i with length := q.out.1, offset := q.out.2 }
          match w1.mmap with
          | [] => Res.blocked
          | addr :: mrest =>
            let s2 := { s1 with buffers :=
                          s1.buffers.set i { start := addr, length := info.length, info := info } }
            let w2 := { w1 with mmap := mrest,
                                log := w1.log ++ [Event.mmap info.length info.offset] }
            if MAP_FAILED = w.past_end then FAIL Diag.errno_mmap s2 w2
            else map_loop todo (i + 1) s2 w2

/-- The method `map()`. -/
def map (s : vid_capture) (w : World) : Res Unit :=
  match xioctl w.reqbufs with
  | none => Res.blocked
  | some (req, rest) =>
    let w1 := { w with reqbufs := rest,
                       log := w.log ++ [Event.VIDIOC_REQBUFS (u32 s.n_buffers)] }
    if req.r = -1 then
      (if req.errno = EINVAL then FAIL Diag.no_memory_mapping s w1
       else FAIL Diag.errno_VIDIOC_REQBUFS s w1)
    else if req.out < 2 then FAIL (Diag.insufficient_buffer_memory req.out) s w1
    else
      let sw := unmap s w1
      map_loop req.out 0 sw.1 sw.2

/-- The loop of `start()`: `todo` iterations remain, the next index is `i`. -/
def start_loop : Nat → Nat → vid_capture → World → Res Unit
  | 0, _, s, w => Res.ok () s w
  | todo + 1, i, s, w =>
    let b := s.buffers.getD i zero_buffer
    if b.length > 0 then
      let s1 := { s with buffers := s.buffers.set i { b with info := fresh_info i } }
      match xioctl w.qbuf with
      | none => Res.blocked
      | some (q, qrest) =>
        let w1 := { w with qbuf := qrest, log := w.log ++ [Event.VIDIOC_QBUF (fresh_info i)] }
        if q.r = -1 then FAIL Diag.errno_VIDIOC_QBUF s1 w1
        else start_loop todo (i + 1) s1 w1
    else start_loop todo (i + 1) s w

/-- The method `start()`. -/
def start (s : vid_capture) (w : World) : Res Unit :=
  match start_loop s.n_buffers 0 s w with
  | Res.ok _ s1 w1 =>
    (match xioctl w1.streamon with
     | none => Res.blocked
     | some (x, rest) =>
       let w2 := { w1 with streamon := rest, log := w1.log ++ [Event.VIDIOC_STREAMON] }
       if x.r = -1 then FAIL Diag.errno_VIDIOC_STREAMON s1 w2 else Res.ok () s1 w2)
  | other => other

/-- The method `stop()`. -/
def stop (s : vid_capture) (w : World) : Res Unit :=
  match xioctl w.streamoff with
  | none => Res.blocked
  | some (x, rest) =>
    let w1 := { w with streamoff := rest, log := w.log ++ [Event.VIDIOC_STREAMOFF] }
    if x.r = -1 then FAIL Diag.errno_VIDIOC_STREAMOFF s w1 else Res.ok () s w1

/-- The loop of `wait()` over the scripted outcomes of `select`; `log` is the
log so far. Every pass sets `tv` to 2 seconds and 0 microseconds before it
calls `select`; the log entry holds that timeout. -/
def wait_loop (s : vid_capture) (w : World) : List (Ret Unit) → List Event → Res Bool
  | [], _ => Res.blocked
  | x :: rest, log =>
    if x.r = -1 then
      (if x.errno = EINTR then wait_loop s w rest (log ++ [Event.select 2 0])
       else FAIL Diag.errno_select s { w with select := rest, log := log ++ [Event.select 2 0] })
    else if x.r = 0 then
      Res.ok false s { w with select := rest, log := log ++ [Event.select 2 0] }
    else Res.ok true s { w with select := rest, log := log ++ [Event.select 2 0] }

/-- The method `wait()`. -/
def wait (s : vid_capture) (w : World) : Res Bool :=
  wait_loop s w w.select w.log

/-- The method `get()`. -/
def get (s : vid_capture) (w : World) : Res Int :=
  match xioctl w.dqbuf with
  | none => Res.blocked
  | some (x, rest) =>
    let w1 := { w with dqbuf := rest, log := w.log ++ [Event.VIDIOC_DQBUF] }
    if x.r = -1 then
      (if x.errno = EAGAIN then Res.ok (-1) s w1
       else FAIL Diag.errno_VIDIOC_DQBUF s w1)
    else if x.out ≥ s.n_buffers then FAIL (Diag.buffer_out_of_range x.out) s w1
    else Res.ok (toInt32 x.out) s w1

/-- The method `data( i )`. -/
def data (s : vid_capture) (i : Int) : Nat :=
  if i < 0 ∨ i ≥ (s.n_buffers : Int) then NULL
  else (s.buffers.getD i.toNat zero_buffer).start

/-- The method `release( i )`. -/
def release (s : vid_capture) (w : World) (i : Int) : Res Unit :=
  if i < 0 ∨ i ≥ (s.n_buffers : Int) then Res.ok () s w
  else
    match xioctl w.qbuf with
    | none => Res.blocked
    | some (x, rest) =>
      let w1 := { w with qbuf := rest,
                         log := w.log ++ [Event.VIDIOC_QBUF (s.buffers.getD i.toNat zero_buffer).info] }
      if x.r = -1 then FAIL Diag.errno_VIDIOC_QBUF s w1 else Res.ok () s w1

end vid_capture

/-! The frame acquisition of `display()` (the branch `!showpoles`). -/

/-- The world after one more request has been logged. -/
def World.record (w : World) (e : Event) : World :=
  { w with log := w.log ++ [e] }

/-- The loop `while (frameid >= 0)` of `display()`. Every iteration takes at
least one outcome from the VIDIOC_DQBUF script, so `fuel` above the length of
that script is never used up. -/
def display_loop : Nat → Int → vid_capture → World → Res Unit
  | 0, frameid, s, w => if frameid < 0 then Res.ok () s w else Res.blocked
  | fuel + 1, frameid, s, w =>
    if frameid < 0 then Res.ok () s w
    else
      match vid_capture.get s w with
      | Res.ok nextframeid s1 w1 =>
        let w2 :=
          if nextframeid < 0 then
            w1.record (Event.memcpy frameid (vid_capture.data s1 frameid)
              (vid_capture.bytesperframe s1))
          else w1
        (match vid_capture.release s1 (w2.record (Event.release frameid)) frameid with
         | Res.ok _ s2 w4 => display_loop fuel nextframeid s2 w4
         | Res.fatal st d s2 w4 => Res.fatal st d s2 w4
         | Res.undefined => Res.undefined
         | Res.blocked => Res.blocked)
      | Res.fatal st d s1 w1 => Res.fatal st d s1 w1
      | Res.undefined => Res.undefined
      | Res.blocked => Res.blocked

/-- The capture section of `display()`: `wait(); get();` and the drain loop. -/
def display (s : vid_capture) (w : World) : Res Unit :=
  match vid_capture.wait s w with
  | Res.ok _ s1 w1 =>
    (match vid_capture.get s1 w1 with
     | Res.ok frameid s2 w2 => display_loop (w2.dqbuf.length + 1) frameid s2 w2
     | Res.fatal st d s2 w2 => Res.fatal st d s2 w2
     | Res.undefined => Res.undefined
     | Res.blocked => Res.blocked)
  | Res.fatal st d s1 w1 => Res.fatal st d s1 w1
  | Res.undefined => Res.undefined
  | Res.blocked => Res.blocked

/-- The `memcpy` calls in a log, in order: frame id, source address, byte count. -/
def copies : List Event → List (Int × Nat × Int)
  | [] => []
  | Event.memcpy f src n :: l => (f, src, n) :: copies l
  | _ :: l => copies l

/-- The arguments of the `release( i )` calls in a log, in order. -/
def releases : List Event → List Int
  | [] => []
  | Event.release i :: l => i :: releases l
  | _ :: l => releases l

/-! Specification vocabulary and sample environments. -/

/-- The outcomes of a script that `xioctl` hands to its caller: those that are
not EINTR failures. -/
def served {α : Type} (l : List (Ret α)) : List (Ret α) :=
  l.filter (fun x => !isEINTR x)

/-- What `unmap()` does to one table entry. -/
def unmap_buf (b : buffer) : buffer :=
  if b.length > 0 then { b with start := NULL, length := 0 } else b

/-- The table entry `map()` writes for buffer `j` from the reply `q` of
VIDIOC_QUERYBUF (length, offset) and the address `m` returned by `mmap`. -/
def mapped_buf (j : Nat) (q : Nat × Nat) (m : Nat) : buffer :=
  { start := m, length := q.1,
    info := { index := j, type := V4L2_BUF_TYPE_VIDEO_CAPTURE, memory := V4L2_MEMORY_MMAP,
              length := q.1, offset := q.2 } }

/-- The part of the world `map()` leaves alone. -/
def World.same_streams (w1 w : World) : Prop :=
  w1.qbuf = w.qbuf ∧ w1.dqbuf = w.dqbuf ∧ w1.streamon = w.streamon ∧
  w1.streamoff = w.streamoff ∧ w1.select = w.select ∧ w1.past_end = w.past_end

/-- A successful outcome (return value 0) that stores `a`. -/
def ok_ret {α : Type} (a : α) : Ret α := { r := 0, errno := 0, out := a }

/-- A failed outcome (return value -1) with the given `errno`. -/
def err_ret {α : Type} (errno : Nat) (a : α) : Ret α := { r := -1, errno := errno, out := a }

/-- An environment with no scripted outcome, an empty log, and a null word
past the end of the buffer table. -/
def World.quiet : World :=
  { querycap := [], cropcap := [], s_crop := [], s_fmt := [], reqbufs := [],
    querybuf := [], mmap := [], qbuf := [], dqbuf := [], streamon := [],
    streamoff := [], select := [], past_end := 0, log := [] }

/-- The driver grants 2 buffers of 614400 bytes to a request and both `mmap`
calls succeed. -/
def world_grant_two : World :=
  { World.quiet with
    reqbufs := [ok_ret 2],
    querybuf := [ok_ret (614400, 0), ok_ret (614400, 614400)],
    mmap := [0x7f0000000000, 0x7f0000100000] }

/-- The object after `map()` ran on `construct 4` in `world_grant_two`. -/
def pool_four_grant_two : vid_capture :=
  { fd := -1, n_buffers := 4,
    buffers := [mapped_buf 0 (614400, 0) 0x7f0000000000,
                mapped_buf 1 (614400, 614400) 0x7f0000100000,
                zero_buffer, zero_buffer],
    fmt := zero_fmt }

/-- The world after `map()` ran on `construct 4` in `world_grant_two`. -/
def world_after_grant_two : World :=
  { World.quiet with
    log := [Event.VIDIOC_REQBUFS 4,
            Event.VIDIOC_QUERYBUF (fresh_info 0), Event.mmap 614400 0,
            Event.VIDIOC_QUERYBUF (fresh_info 1), Event.mmap 614400 614400] }

/-- The driver grants 1 buffer to a request. -/
def world_grant_one : World :=
  { World.quiet with reqbufs := [ok_ret 1] }

/-- The driver grants 4 buffers; it reports length 0 for buffer 0, whose `mmap`
fails (returns MAP_FAILED); the other three are mapped. -/
def world_mmap_fails : World :=
  { World.quiet with
    reqbufs := [ok_ret 4],
    querybuf := [ok_ret (0, 0), ok_ret (614400, 614400),
                 ok_ret (614400, 1228800), ok_ret (614400, 1843200)],
    mmap := [MAP_FAILED, 0x7f0000100000, 0x7f0000200000, 0x7f0000300000] }

/-- The object after `map()` ran on `construct 4` in `world_mmap_fails`. -/
def pool_mmap_failed : vid_capture :=
  { fd := -1, n_buffers := 4,
    buffers := [mapped_buf 0 (0, 0) MAP_FAILED,
                mapped_buf 1 (614400, 614400) 0x7f0000100000,
                mapped_buf 2 (614400, 1228800) 0x7f0000200000,
                mapped_buf 3 (614400, 1843200) 0x7f0000300000],
    fmt := zero_fmt }

/-- The world after `map()` ran on `construct 4` in `world_mmap_fails`. -/
def world_after_mmap_failed : World :=
  { World.quiet with
    log := [Event.VIDIOC_REQBUFS 4,
            Event.VIDIOC_QUERYBUF (fresh_info 0), Event.mmap 0 0,
            Event.VIDIOC_QUERYBUF (fresh_info 1), Event.mmap 614400 614400,
            Event.VIDIOC_QUERYBUF (fresh_info 2), Event.mmap 614400 1228800,
            Event.VIDIOC_QUERYBUF (fresh_info 3), Event.mmap 614400 1843200] }

/-- The driver grants 4 buffers of 614400 bytes; the `mmap` of buffer 1 fails. -/
def world_second_mmap_fails : World :=
  { World.quiet with
    reqbufs := [ok_ret 4],
    querybuf := [ok_ret (614400, 0), ok_ret (614400, 614400),
                 ok_ret (614400, 1228800), ok_ret (614400, 1843200)],
    mmap := [0x7f0000000000, MAP_FAILED, 0x7f0000200000, 0x7f0000300000] }

/-- The object after `map()` ran on `construct 4` in `world_second_mmap_fails`. -/
def pool_second_mmap_failed : vid_capture :=
  { fd := -1, n_buffers := 4,
    buffers := [mapped_buf 0 (614400, 0) 0x7f0000000000,
                mapped_buf 1 (614400, 614400) MAP_FAILED,
                mapped_buf 2 (614400, 1228800) 0x7f0000200000,
                mapped_buf 3 (614400, 1843200) 0x7f0000300000],
    fmt := zero_fmt }

/-- The world after `map()` ran on `construct 4` in `world_second_mmap_fails`. -/
def world_after_second_mmap_failed : World :=
  { World.quiet with
    log := [Event.VIDIOC_REQBUFS 4,
            Event.VIDIOC_QUERYBUF (fresh_info 0), Event.mmap 614400 0,
            Event.VIDIOC_QUERYBUF (fresh_info 1), Event.mmap 614400 614400,
            Event.VIDIOC_QUERYBUF (fresh_info 2), Event.mmap 614400 1228800,
            Event.VIDIOC_QUERYBUF (fresh_info 3), Event.mmap 614400 1843200] }

/-- A capable device whose driver accepts YUYV and reports a 65536 x 32768
frame with 131072 bytes per line and image size 0. -/
def world_huge_frame : World :=
  { World.quiet with
    querycap := [ok_ret (V4L2_CAP_VIDEO_CAPTURE + V4L2_CAP_STREAMING)],
    cropcap := [err_ret EINVAL ()],
    s_fmt := [ok_ret { width := 65536, height := 32768, pixelformat := V4L2_PIX_FMT_YUYV,
                       field := V4L2_FIELD_INTERLACED, bytesperline := 131072,
                       sizeimage := 0 }] }

/-- A capable device whose driver accepts YUYV at 640 x 480 and reports 0 for
the bytes per line and the image size. -/
def world_vga : World :=
  { World.quiet with
    querycap := [ok_ret (V4L2_CAP_VIDEO_CAPTURE + V4L2_CAP_STREAMING)],
    cropcap := [ok_ret ()],
    s_crop := [err_ret EINVAL ()],
    s_fmt := [ok_ret { width := 640, height := 480, pixelformat := V4L2_PIX_FMT_YUYV,
                       field := V4L2_FIELD_INTERLACED, bytesperline := 0,
                       sizeimage := 0 }] }

/-- A pool of 4 mapped buffers of 614400 bytes with the 640 x 480 YUYV format. -/
def pool_vga : vid_capture :=
  { fd := 3, n_buffers := 4,
    buffers := [mapped_buf 0 (614400, 0) 0x7f0000000000,
                mapped_buf 1 (614400, 614400) 0x7f0000100000,
                mapped_buf 2 (614400, 1228800) 0x7f0000200000,
                mapped_buf 3 (614400, 1843200) 0x7f0000300000],
    fmt := { type := V4L2_BUF_TYPE_VIDEO_CAPTURE,
             pix := { width := 640, height := 480, pixelformat := V4L2_PIX_FMT_YUYV,
                      field := V4L2_FIELD_INTERLACED, bytesperline := 1280,
                      sizeimage := 614400 } } }

/-- One tick with two frames queued: `select` reports the device ready, the
driver hands out buffer 0, is interrupted once, hands out buffer 1, then has
no frame (EAGAIN); both re-queue requests succeed. -/
def world_two_frames : World :=
  { World.quiet with
    select := [{ r := 1, errno := 0, out := () }],
    dqbuf := [ok_ret 0, err_ret EINTR 0, ok_ret 1, err_ret EAGAIN 0],
    qbuf := [ok_ret (), ok_ret ()] }

/-- The driver hands out buffer 2 after one interrupted call. -/
def world_one_frame : World :=
  { World.quiet with dqbuf := [err_ret EINTR 0, ok_ret 2] }

/-- One tick with no frame: `select` is interrupted once and then times out
(returns 0); the driver has no frame (EAGAIN). -/
def world_timeout : World :=
  { World.quiet with
    select := [err_ret EINTR (), ok_ret ()],
    dqbuf := [err_ret EAGAIN 0] }

/-- The outcomes of `select`: interrupted twice, then the device is ready. -/
def world_ready_after_signals : World :=
  { World.quiet with
    select := [err_ret EINTR (), err_ret EINTR (), { r := 1, errno := 0, out := () }] }

/-- The conditions under which `init()` exits: the capability reply `cap` is a
failure or lacks a capability bit, or the set-format reply `f` is a failure or
does not carry YUYV. -/
def init_rejects (cap : Ret Nat) (f : Ret v4l2_pix_format) : Prop :=
  cap.r = -1 ∨ Nat.land cap.out V4L2_CAP_VIDEO_CAPTURE = 0 ∨
  Nat.land cap.out V4L2_CAP_STREAMING = 0 ∨ f.r = -1 ∨
  f.out.pixelformat ≠ V4L2_PIX_FMT_YUYV

instance (cap : Ret Nat) (f : Ret v4l2_pix_format) : Decidable (init_rejects cap f) := by
  unfold init_rejects; infer_instance

/-- The device of `world_vga` with a driver that has no crop support at all
(VIDIOC_CROPCAP fails and no VIDIOC_S_CROP outcome is scripted). -/
def world_vga_no_crop : World :=
  { world_vga with cropcap := [err_ret EINVAL ()], s_crop := [] }

/-- A device without the streaming capability. -/
def world_no_streaming : World :=
  { world_vga with querycap := [ok_ret V4L2_CAP_VIDEO_CAPTURE] }

/-- The indices `i`, `i + 1`, ... (`todo` of them) whose table entry has a
non-zero length, in ascending order. -/
def mapped_from (bs : List buffer) (i todo : Nat) : List Nat :=
  (List.range' i todo).filter (fun j => decide ((bs.getD j zero_buffer).length > 0))

/-- The mapped buffers of the pool: the indices below `n_buffers` whose table
entry has a non-zero length, in ascending order. -/
def mapped_indices (s : vid_capture) : List Nat :=
  mapped_from s.buffers 0 s.n_buffers

/-- The world of `world_grant_two` with outcomes for `start()` and for one
`release()`: three accepted queue requests and an accepted stream-on. -/
def world_grant_two_stream : World :=
  { world_grant_two with
    qbuf := [ok_ret (), ok_ret (), ok_ret ()],
    streamon := [ok_ret ()] }

/-- The driver accepts the queue request for buffer 0 and rejects the next one. -/
def world_qbuf_rejected : World :=
  { World.quiet with
    qbuf := [ok_ret (), err_ret EINVAL ()],
    streamon := [ok_ret ()] }

/-- The driver accepts four queue requests and the stream-on. -/
def world_start_four : World :=
  { World.quiet with
    qbuf := [ok_ret (), ok_ret (), ok_ret (), ok_ret ()],
    streamon := [ok_ret ()] }

/-- The descriptor `d` names buffer `j` for a memory-mapped capture queue:
index `j`, the capture type, mmap memory. -/
def names_buffer (j : Nat) (d : v4l2_buffer) : Prop :=
  d.index = j ∧ d.type = V4L2_BUF_TYPE_VIDEO_CAPTURE ∧ d.memory = V4L2_MEMORY_MMAP

instance (j : Nat) (d : v4l2_buffer) : Decidable (names_buffer j d) := by
  unfold names_buffer; infer_instance

/-- The world after `map()` ran on `construct 4` in `world_grant_two_stream`. -/
def world_mapped_two_stream : World :=
  { world_after_grant_two with
    qbuf := [ok_ret (), ok_ret (), ok_ret ()],
    streamon := [ok_ret ()] }

/-- The object after `start()` ran on `pool_four_grant_two`: the descriptors of
the two mapped buffers have been rebuilt, the other two entries are untouched. -/
def pool_four_streaming : vid_capture :=
  { fd := -1, n_buffers := 4,
    buffers := [{ start := 0x7f0000000000, length := 614400, info := fresh_info 0 },
                { start := 0x7f0000100000, length := 614400, info := fresh_info 1 },
                zero_buffer, zero_buffer],
    fmt := zero_fmt }

/-- The world after `start()` ran on `pool_four_grant_two` in
`world_mapped_two_stream`. -/
def world_streaming_two : World :=
  { World.quiet with
    qbuf := [ok_ret ()],
    log := [Event.VIDIOC_REQBUFS 4,
            Event.VIDIOC_QUERYBUF (fresh_info 0), Event.mmap 614400 0,
            Event.VIDIOC_QUERYBUF (fresh_info 1), Event.mmap 614400 614400,
            Event.VIDIOC_QBUF (fresh_info 0), Event.VIDIOC_QBUF (fresh_info 1),
            Event.VIDIOC_STREAMON] }

/-! Helper lemmas: the retry loop. -/

theorem isEINTR_iff {α : Type} (x : Ret α) :
    isEINTR x = true ↔ (x.r = -1 ∧ x.errno = EINTR) := by
  simp [isEINTR]

theorem xioctl_skip {α : Type} (pre : List (Ret α)) (l : List (Ret α))
    (hpre : ∀ e ∈ pre, e.r = -1 ∧ e.errno = EINTR) :
    xioctl (pre ++ l) = xioctl l := by
  induction pre with
  | nil => rfl
  | cons e pre ih =>
    have he : isEINTR e = true := (isEINTR_iff e).2 (hpre e (List.mem_cons_self _ _))
    have hrest : ∀ e' ∈ pre, e'.r = -1 ∧ e'.errno = EINTR :=
      fun e' h' => hpre e' (List.mem_cons_of_mem _ h')
    simp [xioctl, he, ih hrest]

theorem xioctl_append {α : Type} (pre : List (Ret α)) (x : Ret α) (rest : List (Ret α))
    (hpre : ∀ e ∈ pre, e.r = -1 ∧ e.errno = EINTR)
    (hx : ¬ (x.r = -1 ∧ x.errno = EINTR)) :
    xioctl (pre ++ x :: rest) = some (x, rest) := by
  rw [xioctl_skip pre _ hpre]
  have hx' : isEINTR x = false := by
    cases h : isEINTR x with
    | false => rfl
    | true => exact absurd ((isEINTR_iff x).1 h) hx
  simp [xioctl, hx']

/-! Helper lemmas: the buffer table. -/

theorem getD_set {α : Type} (l : List α) (i j : Nat) (a d : α) :
    (l.set i a).getD j d = if i = j ∧ i < l.length then a else l.getD j d := by
  simp only [List.getD_eq_getElem?_getD, List.getElem?_set]
  by_cases h : i = j
  · subst h
    by_cases hl : i < l.length
    · simp [hl]
    · have hle : l.length ≤ i := by omega
      simp [hl, List.getElem?_eq_none hle]
  · simp [h]

theorem getD_replicate_zero (n j : Nat) :
    (List.replicate n zero_buffer).getD j zero_buffer = zero_buffer := by
  simp only [List.getD_eq_getElem?_getD, List.getElem?_replicate]
  by_cases h : j < n <;> simp [h]

theorem unmap_loop_skip (todo i : Nat) (s : vid_capture) (w : World)
    (h : ¬ (s.buffers.getD i zero_buffer).length > 0) :
    vid_capture.unmap_loop (todo + 1) i s w = vid_capture.unmap_loop todo (i + 1) s w := by
  rw [vid_capture.unmap_loop]
  exact if_neg h

theorem unmap_loop_hit (todo i : Nat) (s : vid_capture) (w : World)
    (h : (s.buffers.getD i zero_buffer).length > 0) :
    vid_capture.unmap_loop (todo + 1) i s w =
      vid_capture.unmap_loop todo (i + 1)
        { s with buffers := (s.buffers.set i
            { (s.buffers.getD i zero_buffer) with start := NULL, length := 0 }) }
        { w with log := w.log ++ [Event.munmap (s.buffers.getD i zero_buffer).start
            (s.buffers.getD i zero_buffer).length] } := by
  rw [vid_capture.unmap_loop]
  exact if_pos h

theorem unmap_loop_noop (todo : Nat) : ∀ (i : Nat) (s : vid_capture) (w : World),
    (∀ j, i ≤ j → j < i + todo → (s.buffers.getD j zero_buffer).length = 0) →
    vid_capture.unmap_loop todo i s w = (s, w) := by
  induction todo with
  | zero => intro i s w _; rfl
  | succ todo ih =>
    intro i s w h
    have h0 : (s.buffers.getD i zero_buffer).length = 0 := h i (le_refl _) (by omega)
    rw [unmap_loop_skip todo i s w (by omega)]
    exact ih (i + 1) s w (fun j h1 h2 => h j (by omega) (by omega))

theorem unmap_loop_spec (todo : Nat) : ∀ (i : Nat) (s : vid_capture) (w : World),
    (vid_capture.unmap_loop todo i s w).1.n_buffers = s.n_buffers ∧
    (vid_capture.unmap_loop todo i s w).1.fd = s.fd ∧
    (vid_capture.unmap_loop todo i s w).1.fmt = s.fmt ∧
    (vid_capture.unmap_loop todo i s w).1.buffers.length = s.buffers.length ∧
    (∀ j, (vid_capture.unmap_loop todo i s w).1.buffers.getD j zero_buffer =
      if i ≤ j ∧ j < i + todo then unmap_buf (s.buffers.getD j zero_buffer)
      else s.buffers.getD j zero_buffer) := by
  induction todo with
  | zero =>
    intro i s w
    refine ⟨rfl, rfl, rfl, rfl, ?_⟩
    intro j
    have hn : ¬ (i ≤ j ∧ j < i + 0) := by omega
    rw [if_neg hn]
    rfl
  | succ todo ih =>
    intro i s w
    by_cases hb : (s.buffers.getD i zero_buffer).length > 0
    · have hil : i < s.buffers.length := by
        by_contra hge
        have hle : s.buffers.length ≤ i := by omega
        have hz : s.buffers.getD i zero_buffer = zero_buffer := by
          simp [List.getD_eq_getElem?_getD, List.getElem?_eq_none hle]
        rw [hz] at hb
        simp [zero_buffer] at hb
      rw [unmap_loop_hit todo i s w hb]
      obtain ⟨h1, h2, h3, h4, h5⟩ := ih (i + 1)
        { s with buffers := (s.buffers.set i
            { (s.buffers.getD i zero_buffer) with start := NULL, length := 0 }) }
        { w with log := w.log ++ [Event.munmap (s.buffers.getD i zero_buffer).start
            (s.buffers.getD i zero_buffer).length] }
      refine ⟨h1, h2, h3, ?_, ?_⟩
      · rw [h4]; exact List.length_set _ _ _
      · intro j
        rw [h5 j]
        simp only [getD_set]
        by_cases hij : i = j
        · subst hij
          have hn : ¬ (i + 1 ≤ i ∧ i < i + 1 + todo) := by omega
          have hy : (i ≤ i ∧ i < i + (todo + 1)) := by omega
          rw [if_neg hn, if_pos hy, if_pos ⟨rfl, hil⟩]
          unfold unmap_buf
          rw [if_pos hb]
        · have hne : ¬ (i = j ∧ i < s.buffers.length) := fun h => hij h.1
          rw [if_neg hne]
          by_cases hr : i + 1 ≤ j ∧ j < i + 1 + todo
          · have hy : (i ≤ j ∧ j < i + (todo + 1)) := by omega
            rw [if_pos hr, if_pos hy]
          · have hy : ¬ (i ≤ j ∧ j < i + (todo + 1)) := by omega
            rw [if_neg hr, if_neg hy]
    · rw [unmap_loop_skip todo i s w hb]
      obtain ⟨h1, h2, h3, h4, h5⟩ := ih (i + 1) s w
      refine ⟨h1, h2, h3, h4, ?_⟩
      intro j
      rw [h5 j]
      by_cases hij : i = j
      · subst hij
        have hn : ¬ (i + 1 ≤ i ∧ i < i + 1 + todo) := by omega
        have hy : (i ≤ i ∧ i < i + (todo + 1)) := by omega
        rw [if_neg hn, if_pos hy]
        unfold unmap_buf
        rw [if_neg hb]
      · by_cases hr : i + 1 ≤ j ∧ j < i + 1 + todo
        · have hy : (i ≤ j ∧ j < i + (todo + 1)) := by omega
          rw [if_pos hr, if_pos hy]
        · have hy : ¬ (i ≤ j ∧ j < i + (todo + 1)) := by omega
          rw [if_neg hr, if_neg hy]

theorem unmap_buf_length (b : buffer) : (unmap_buf b).length = 0 := by
  unfold unmap_buf
  by_cases h : b.length > 0
  · simp [h]
  · simp only [h, if_false]; omega

theorem unmap_getD (s : vid_capture) (w : World) (j : Nat) :
    (vid_capture.unmap s w).1.buffers.getD j zero_buffer =
      if j < s.n_buffers then unmap_buf (s.buffers.getD j zero_buffer)
      else s.buffers.getD j zero_buffer := by
  have h := (unmap_loop_spec s.n_buffers 0 s w).2.2.2.2 j
  simp only [vid_capture.unmap, h, Nat.zero_le, true_and, Nat.zero_add]

theorem unmap_n_buffers (s : vid_capture) (w : World) :
    (vid_capture.unmap s w).1.n_buffers = s.n_buffers :=
  (unmap_loop_spec s.n_buffers 0 s w).1

/-! Helper lemmas: `map()`. -/

theorem xioctl_served {α : Type} (l : List (Ret α)) (x : Ret α) (rest : List (Ret α))
    (h : served l = x :: rest) :
    ∃ l1, xioctl l = some (x, l1) ∧ served l1 = rest := by
  induction l with
  | nil => simp [served] at h
  | cons e l ih =>
    cases he : isEINTR e with
    | true =>
      have h1 : served l = x :: rest := by
        simpa [served, he] using h
      obtain ⟨l1, h2, h3⟩ := ih h1
      exact ⟨l1, by simp [xioctl, he, h2], h3⟩
    | false =>
      have h1 : e :: served l = x :: rest := by
        simpa [served, he] using h
      injection h1 with h2 h3
      subst h2
      exact ⟨l, by simp [xioctl, he], h3⟩

theorem map_loop_step (todo i : Nat) (s : vid_capture) (w : World)
    (q : Ret (Nat × Nat)) (qrest : List (Ret (Nat × Nat))) (addr : Nat) (mrest : List Nat)
    (hi : i < s.n_buffers) (hq : xioctl w.querybuf = some (q, qrest)) (hr : q.r ≠ -1)
    (hm : w.mmap = addr :: mrest) (hp : MAP_FAILED ≠ w.past_end) :
    vid_capture.map_loop (todo + 1) i s w =
      vid_capture.map_loop todo (i + 1)
        { s with buffers := (s.buffers.set i (mapped_buf i q.out addr)) }
        { w with querybuf := qrest, mmap := mrest,
                 log := (w.log ++ [Event.VIDIOC_QUERYBUF (fresh_info i)]) ++
                   [Event.mmap q.out.1 q.out.2] } := by
  rw [vid_capture.map_loop]
  have hi1 : ¬ s.n_buffers ≤ i := by omega
  simp only [hi1, if_false, hq, hr, hm, hp, List.set_set]
  rfl

theorem map_loop_spec (todo : Nat) : ∀ (i : Nat) (s : vid_capture) (w : World)
    (qs qrest : List (Ret (Nat × Nat))) (ms mrest : List Nat),
    i + todo ≤ s.n_buffers → s.buffers.length = s.n_buffers →
    MAP_FAILED ≠ w.past_end →
    served w.querybuf = qs ++ qrest → qs.length = todo → (∀ q ∈ qs, q.r ≠ -1) →
    w.mmap = ms ++ mrest → ms.length = todo →
    ∃ s1 w1, vid_capture.map_loop todo i s w = Res.ok () s1 w1 ∧
      s1.n_buffers = s.n_buffers ∧ s1.fd = s.fd ∧ s1.fmt = s.fmt ∧
      s1.buffers.length = s.buffers.length ∧
      (∀ j, s1.buffers.getD j zero_buffer =
        if i ≤ j ∧ j < i + todo then
          mapped_buf j ((qs.getD (j - i) ⟨0, 0, (0, 0)⟩).out) (ms.getD (j - i) 0)
        else s.buffers.getD j zero_buffer) ∧
      w1.same_streams w := by
  induction todo with
  | zero =>
    intro i s w qs qrest ms mrest _ _ _ _ _ _ _ _
    refine ⟨s, w, rfl, rfl, rfl, rfl, rfl, ?_, ⟨rfl, rfl, rfl, rfl, rfl, rfl⟩⟩
    intro j
    have hn : ¬ (i ≤ j ∧ j < i + 0) := by omega
    rw [if_neg hn]
  | succ todo ih =>
    intro i s w qs qrest ms mrest hi hlen hp hq hql hqok hm hml
    match qs, hql, hq, hqok with
    | q :: qs1, hql, hq, hqok =>
      match ms, hml, hm with
      | m :: ms1, hml, hm =>
        obtain ⟨l1, hx, hs1⟩ := xioctl_served w.querybuf q (qs1 ++ qrest) (by simpa using hq)
        have hr : q.r ≠ -1 := hqok q (List.mem_cons_self _ _)
        rw [map_loop_step todo i s w q l1 m (ms1 ++ mrest) (by omega) hx hr
          (by simpa using hm) hp]
        obtain ⟨s1, w1, h0, h1, h2, h3, h4, h5, h6⟩ := ih (i + 1)
          { s with buffers := (s.buffers.set i (mapped_buf i q.out m)) }
          { w with querybuf := l1, mmap := ms1 ++ mrest,
                   log := (w.log ++ [Event.VIDIOC_QUERYBUF (fresh_info i)]) ++
                     [Event.mmap q.out.1 q.out.2] }
          qs1 qrest ms1 mrest (by simp only []; omega)
          (by simp only [List.length_set]; exact hlen) hp hs1
          (by simpa using hql)
          (fun q1 hq1 => hqok q1 (List.mem_cons_of_mem _ hq1)) rfl (by simpa using hml)
        refine ⟨s1, w1, h0, h1, h2, h3, ?_, ?_, h6⟩
        · rw [h4]; exact List.length_set _ _ _
        · intro j
          rw [h5 j]
          simp only [getD_set]
          by_cases hij : i = j
          · subst hij
            have hn : ¬ (i + 1 ≤ i ∧ i < i + 1 + todo) := by omega
            have hy : (i ≤ i ∧ i < i + (todo + 1)) := by omega
            have hil : i < s.buffers.length := by omega
            rw [if_neg hn, if_pos hy, if_pos ⟨rfl, hil⟩]
            simp
          · have hne : ¬ (i = j ∧ i < s.buffers.length) := fun h => hij h.1
            rw [if_neg hne]
            by_cases hrg : i + 1 ≤ j ∧ j < i + 1 + todo
            · have hy : (i ≤ j ∧ j < i + (todo + 1)) := by omega
              rw [if_pos hrg, if_pos hy]
              have hsub : j - i = (j - (i + 1)) + 1 := by omega
              rw [hsub]
              simp
            · have hy : ¬ (i ≤ j ∧ j < i + (todo + 1)) := by omega
              rw [if_neg hrg, if_neg hy]

theorem unmap_loop_world (todo : Nat) : ∀ (i : Nat) (s : vid_capture) (w : World),
    (vid_capture.unmap_loop todo i s w).2 =
      { w with log := (vid_capture.unmap_loop todo i s w).2.log } := by
  induction todo with
  | zero => intro i s w; rfl
  | succ todo ih =>
    intro i s w
    by_cases hb : (s.buffers.getD i zero_buffer).length > 0
    · rw [unmap_loop_hit todo i s w hb]
      rw [ih (i + 1)]
    · rw [unmap_loop_skip todo i s w hb]
      exact ih (i + 1) s w

theorem map_spec (s : vid_capture) (w : World)
    (req : Ret Nat) (rrest : List (Ret Nat))
    (qs qrest : List (Ret (Nat × Nat))) (ms mrest : List Nat)
    (hlen : s.buffers.length = s.n_buffers)
    (hreq : served w.reqbufs = req :: rrest) (hr : req.r ≠ -1)
    (h2 : 2 ≤ req.out) (hg : req.out ≤ s.n_buffers)
    (hp : MAP_FAILED ≠ w.past_end)
    (hq : served w.querybuf = qs ++ qrest) (hql : qs.length = req.out)
    (hqok : ∀ q ∈ qs, q.r ≠ -1)
    (hm : w.mmap = ms ++ mrest) (hml : ms.length = req.out) :
    ∃ s1 w1, s.map w = Res.ok () s1 w1 ∧
      s1.n_buffers = s.n_buffers ∧ s1.fd = s.fd ∧ s1.fmt = s.fmt ∧
      s1.buffers.length = s.buffers.length ∧
      (∀ j, s1.buffers.getD j zero_buffer =
        if j < req.out then
          mapped_buf j ((qs.getD j ⟨0, 0, (0, 0)⟩).out) (ms.getD j 0)
        else if j < s.n_buffers then unmap_buf (s.buffers.getD j zero_buffer)
        else s.buffers.getD j zero_buffer) ∧
      w1.same_streams w := by
  obtain ⟨l1, hx, _⟩ := xioctl_served w.reqbufs req rrest hreq
  have hnlt : ¬ req.out < 2 := by omega
  have hu := unmap_loop_spec s.n_buffers 0 s
    { w with reqbufs := l1, log := w.log ++ [Event.VIDIOC_REQBUFS (u32 s.n_buffers)] }
  have hw := unmap_loop_world s.n_buffers 0 s
    { w with reqbufs := l1, log := w.log ++ [Event.VIDIOC_REQBUFS (u32 s.n_buffers)] }
  obtain ⟨u1, u2, u3, u4, u5⟩ := hu
  obtain ⟨s1, w1, h0, k1, k2, k3, k4, k5, k6⟩ := map_loop_spec req.out 0
    (vid_capture.unmap s
      { w with reqbufs := l1, log := w.log ++ [Event.VIDIOC_REQBUFS (u32 s.n_buffers)] }).1
    (vid_capture.unmap s
      { w with reqbufs := l1, log := w.log ++ [Event.VIDIOC_REQBUFS (u32 s.n_buffers)] }).2
    qs qrest ms mrest
    (by unfold vid_capture.unmap; rw [u1]; omega)
    (by unfold vid_capture.unmap; rw [u1, u4]; exact hlen)
    (by unfold vid_capture.unmap; rw [hw]; exact hp)
    (by unfold vid_capture.unmap; rw [hw]; exact hq)
    hql hqok
    (by unfold vid_capture.unmap; rw [hw]; exact hm)
    hml
  refine ⟨s1, w1, ?_, ?_, ?_, ?_, ?_, ?_, ?_⟩
  · simp only [vid_capture.map, hx, hr, hnlt, if_false]
    exact h0
  · rw [k1]; exact u1
  · rw [k2]; exact u2
  · rw [k3]; exact u3
  · rw [k4]; exact u4
  · intro j
    rw [k5 j]
    by_cases hj : j < req.out
    · have hy : (0 ≤ j ∧ j < 0 + req.out) := by omega
      rw [if_pos hy, if_pos hj]
      simp
    · have hy : ¬ (0 ≤ j ∧ j < 0 + req.out) := by omega
      rw [if_neg hy, if_neg hj]
      have h5 := u5 j
      unfold vid_capture.unmap
      rw [h5]
      by_cases hjn : j < s.n_buffers
      · have hy2 : (0 ≤ j ∧ j < 0 + s.n_buffers) := by omega
        rw [if_pos hy2, if_pos hjn]
      · have hy2 : ¬ (0 ≤ j ∧ j < 0 + s.n_buffers) := by omega
        rw [if_neg hy2, if_neg hjn]
  · unfold World.same_streams at k6 ⊢
    unfold vid_capture.unmap at k6
    rw [hw] at k6
    exact k6

/-! Helper lemmas: `init()`. -/

theorem init_ok (s : vid_capture) (w : World) (wd ht : Int)
    (cap : Ret Nat) (caprest : List (Ret Nat))
    (cc : Ret Unit) (ccrest : List (Ret Unit))
    (f : Ret v4l2_pix_format) (frest : List (Ret v4l2_pix_format))
    (hcap : served w.querycap = cap :: caprest) (hcr : cap.r ≠ -1)
    (hvc : Nat.land cap.out V4L2_CAP_VIDEO_CAPTURE ≠ 0)
    (hst : Nat.land cap.out V4L2_CAP_STREAMING ≠ 0)
    (hcc : served w.cropcap = cc :: ccrest)
    (hsc : cc.r = 0 → served w.s_crop ≠ [])
    (hf : served w.s_fmt = f :: frest) (hfr : f.r ≠ -1)
    (hpf : f.out.pixelformat = V4L2_PIX_FMT_YUYV) :
    ∃ w1, s.init w wd ht =
      Res.ok () { s with fmt := { type := V4L2_BUF_TYPE_VIDEO_CAPTURE,
                                  pix := paranoia f.out } } w1 := by
  obtain ⟨l1, hx1, _⟩ := xioctl_served w.querycap cap caprest hcap
  obtain ⟨l2, hx2, _⟩ := xioctl_served w.cropcap cc ccrest hcc
  obtain ⟨l3, hx3, _⟩ := xioctl_served w.s_fmt f frest hf
  by_cases h0 : cc.r = 0
  · have hne := hsc h0
    obtain ⟨y, yrest, hy⟩ : ∃ y yrest, served w.s_crop = y :: yrest := by
      cases hs : served w.s_crop with
      | nil => exact absurd hs hne
      | cons y yrest => exact ⟨y, yrest, rfl⟩
    obtain ⟨l4, hx4, _⟩ := xioctl_served w.s_crop y yrest hy
    simp only [vid_capture.init, hx1, hcr, hvc, hst, hx2, h0, hx4, hx3, hfr, hpf,
      if_false, if_true, ne_eq, not_true_eq_false]
    exact ⟨_, rfl⟩
  · simp only [vid_capture.init, hx1, hcr, hvc, hst, hx2, h0, hx3, hfr, hpf,
      if_false, if_true, ne_eq, not_true_eq_false]
    exact ⟨_, rfl⟩

theorem init_tail (s : vid_capture) (w : World) (wd ht : Int)
    (cap : Ret Nat) (caprest : List (Ret Nat))
    (cc : Ret Unit) (ccrest : List (Ret Unit))
    (f : Ret v4l2_pix_format) (frest : List (Ret v4l2_pix_format))
    (hcap : served w.querycap = cap :: caprest) (hcr : cap.r ≠ -1)
    (hvc : Nat.land cap.out V4L2_CAP_VIDEO_CAPTURE ≠ 0)
    (hst : Nat.land cap.out V4L2_CAP_STREAMING ≠ 0)
    (hcc : served w.cropcap = cc :: ccrest)
    (hsc : cc.r = 0 → served w.s_crop ≠ [])
    (hf : served w.s_fmt = f :: frest) :
    ∃ sa sb w4, s.init w wd ht =
      (if f.r = -1 then Res.fatal 1 Diag.errno_VIDIOC_S_FMT sa w4
       else if f.out.pixelformat ≠ V4L2_PIX_FMT_YUYV then
        Res.fatal 1 Diag.YUYV_unsupported sb w4
       else
        Res.ok () { s with fmt := { type := V4L2_BUF_TYPE_VIDEO_CAPTURE,
                                    pix := paranoia f.out } } w4) := by
  obtain ⟨l1, hx1, _⟩ := xioctl_served w.querycap cap caprest hcap
  obtain ⟨l2, hx2, _⟩ := xioctl_served w.cropcap cc ccrest hcc
  obtain ⟨l3, hx3, _⟩ := xioctl_served w.s_fmt f frest hf
  by_cases h0 : cc.r = 0
  · have hne := hsc h0
    obtain ⟨y, yrest, hy⟩ : ∃ y yrest, served w.s_crop = y :: yrest := by
      cases hs : served w.s_crop with
      | nil => exact absurd hs hne
      | cons y yrest => exact ⟨y, yrest, rfl⟩
    obtain ⟨l4, hx4, _⟩ := xioctl_served w.s_crop y yrest hy
    simp only [vid_capture.init, hx1, hcr, hvc, hst, hx2, h0, hx4, hx3, if_false, if_true]
    exact ⟨_, _, _, rfl⟩
  · simp only [vid_capture.init, hx1, hcr, hvc, hst, hx2, h0, hx3, if_false, if_true]
    exact ⟨_, _, _, rfl⟩

theorem init_outcome (s : vid_capture) (w : World) (wd ht : Int)
    (cap : Ret Nat) (caprest : List (Ret Nat))
    (cc : Ret Unit) (ccrest : List (Ret Unit))
    (f : Ret v4l2_pix_format) (frest : List (Ret v4l2_pix_format))
    (hcap : served w.querycap = cap :: caprest)
    (hcc : served w.cropcap = cc :: ccrest)
    (hsc : cc.r = 0 → served w.s_crop ≠ [])
    (hf : served w.s_fmt = f :: frest) :
    ∃ d sa w4, s.init w wd ht =
      (if init_rejects cap f then Res.fatal 1 d sa w4
       else Res.ok () { s with fmt := { type := V4L2_BUF_TYPE_VIDEO_CAPTURE,
                                        pix := paranoia f.out } } w4) := by
  obtain ⟨l1, hx1, _⟩ := xioctl_served w.querycap cap caprest hcap
  by_cases hcr : cap.r = -1
  · have hbad : init_rejects cap f := Or.inl hcr
    by_cases he : cap.errno = EINVAL
    · refine ⟨Diag.not_a_linux_video_device, s,
        { w with querycap := l1, log := w.log ++ [Event.VIDIOC_QUERYCAP] }, ?_⟩
      rw [if_pos hbad]
      simp only [vid_capture.init, hx1, hcr, he, if_true, FAIL]
    · refine ⟨Diag.errno_VIDIOC_QUERYCAP, s,
        { w with querycap := l1, log := w.log ++ [Event.VIDIOC_QUERYCAP] }, ?_⟩
      rw [if_pos hbad]
      simp only [vid_capture.init, hx1, hcr, he, if_true, if_false, FAIL]
  · by_cases hvc : Nat.land cap.out V4L2_CAP_VIDEO_CAPTURE = 0
    · have hbad : init_rejects cap f := Or.inr (Or.inl hvc)
      refine ⟨Diag.not_a_video_capture_device, s,
        { w with querycap := l1, log := w.log ++ [Event.VIDIOC_QUERYCAP] }, ?_⟩
      rw [if_pos hbad]
      simp only [vid_capture.init, hx1, hcr, hvc, if_true, if_false, FAIL]
    · by_cases hst : Nat.land cap.out V4L2_CAP_STREAMING = 0
      · have hbad : init_rejects cap f := Or.inr (Or.inr (Or.inl hst))
        refine ⟨Diag.no_streaming, s,
        { w with querycap := l1, log := w.log ++ [Event.VIDIOC_QUERYCAP] }, ?_⟩
        rw [if_pos hbad]
        simp only [vid_capture.init, hx1, hcr, hvc, hst, if_true, if_false, FAIL]
      · obtain ⟨sa, sb, w4, h⟩ := init_tail s w wd ht cap caprest cc ccrest f frest
          hcap hcr hvc hst hcc hsc hf
        by_cases hfr : f.r = -1
        · have hbad : init_rejects cap f := Or.inr (Or.inr (Or.inr (Or.inl hfr)))
          refine ⟨Diag.errno_VIDIOC_S_FMT, sa, w4, ?_⟩
          rw [if_pos hbad, h, if_pos hfr]
        · by_cases hpf : f.out.pixelformat ≠ V4L2_PIX_FMT_YUYV
          · have hbad : init_rejects cap f := Or.inr (Or.inr (Or.inr (Or.inr hpf)))
            refine ⟨Diag.YUYV_unsupported, sb, w4, ?_⟩
            rw [if_pos hbad, h, if_neg hfr, if_pos hpf]
          · have hgood : ¬ init_rejects cap f := by
              unfold init_rejects
              intro hb
              rcases hb with hb | hb | hb | hb | hb
              · exact hcr hb
              · exact hvc hb
              · exact hst hb
              · exact hfr hb
              · exact hpf hb
            refine ⟨Diag.YUYV_unsupported, s, w4, ?_⟩
            rw [if_neg hgood, h, if_neg hfr, if_neg hpf]

/-! Helper lemmas: `start()`. -/

theorem start_loop_skip (todo i : Nat) (s : vid_capture) (w : World)
    (h : ¬ (s.buffers.getD i zero_buffer).length > 0) :
    vid_capture.start_loop (todo + 1) i s w = vid_capture.start_loop todo (i + 1) s w := by
  rw [vid_capture.start_loop]
  exact if_neg h

theorem start_loop_hit (todo i : Nat) (s : vid_capture) (w : World)
    (q : Ret Unit) (qrest : List (Ret Unit))
    (h : (s.buffers.getD i zero_buffer).length > 0)
    (hq : xioctl w.qbuf = some (q, qrest)) (hr : q.r ≠ -1) :
    vid_capture.start_loop (todo + 1) i s w =
      vid_capture.start_loop todo (i + 1)
        { s with buffers := (s.buffers.set i
            { (s.buffers.getD i zero_buffer) with info := fresh_info i }) }
        { w with qbuf := qrest, log := w.log ++ [Event.VIDIOC_QBUF (fresh_info i)] } := by
  rw [vid_capture.start_loop]
  simp only [h, if_true, hq, hr, if_false]

theorem start_loop_fail (todo i : Nat) (s : vid_capture) (w : World)
    (q : Ret Unit) (qrest : List (Ret Unit))
    (h : (s.buffers.getD i zero_buffer).length > 0)
    (hq : xioctl w.qbuf = some (q, qrest)) (hr : q.r = -1) :
    vid_capture.start_loop (todo + 1) i s w =
      Res.fatal 1 Diag.errno_VIDIOC_QBUF
        { s with buffers := (s.buffers.set i
            { (s.buffers.getD i zero_buffer) with info := fresh_info i }) }
        { w with qbuf := qrest, log := w.log ++ [Event.VIDIOC_QBUF (fresh_info i)] } := by
  rw [vid_capture.start_loop]
  simp only [h, if_true, hq, hr, FAIL]

theorem mapped_from_succ (bs : List buffer) (i todo : Nat) :
    mapped_from bs i (todo + 1) =
      if (bs.getD i zero_buffer).length > 0 then i :: mapped_from bs (i + 1) todo
      else mapped_from bs (i + 1) todo := by
  unfold mapped_from
  rw [List.range'_succ]
  by_cases h : (bs.getD i zero_buffer).length > 0
  · rw [if_pos h, List.filter_cons_of_pos (by simpa using h)]
  · rw [if_neg h, List.filter_cons_of_neg (by simpa using h)]

theorem mapped_from_set_info (bs : List buffer) (i j todo : Nat) (x : v4l2_buffer) :
    mapped_from (bs.set i { (bs.getD i zero_buffer) with info := x }) j todo
      = mapped_from bs j todo := by
  unfold mapped_from
  apply List.filter_congr
  intro k _
  rw [getD_set]
  by_cases hk : i = k ∧ i < bs.length
  · rw [if_pos hk, ← hk.1]
  · rw [if_neg hk]

theorem start_loop_ok (todo : Nat) : ∀ (i : Nat) (s : vid_capture) (w : World)
    (ys yrest : List (Ret Unit)),
    served w.qbuf = ys ++ yrest →
    ys.length = (mapped_from s.buffers i todo).length →
    (∀ y ∈ ys, y.r ≠ -1) →
    ∃ s1 w1, vid_capture.start_loop todo i s w = Res.ok () s1 w1 ∧
      w1.log = w.log ++
        (mapped_from s.buffers i todo).map (fun j => Event.VIDIOC_QBUF (fresh_info j)) ∧
      served w1.qbuf = yrest ∧ w1.streamon = w.streamon ∧
      s1.n_buffers = s.n_buffers := by
  induction todo with
  | zero =>
    intro i s w ys yrest hq hl _
    have hnil : ys = [] := by
      have : ys.length = 0 := by simpa [mapped_from] using hl
      exact List.length_eq_zero.mp this
    subst hnil
    exact ⟨s, w, rfl, by simp [mapped_from], by simpa using hq, rfl, rfl⟩
  | succ todo ih =>
    intro i s w ys yrest hq hl hok
    by_cases hb : (s.buffers.getD i zero_buffer).length > 0
    · rw [mapped_from_succ, if_pos hb] at hl
      match ys, hl, hq, hok with
      | y :: ys1, hl, hq, hok =>
        obtain ⟨l1, hx, hs⟩ := xioctl_served w.qbuf y (ys1 ++ yrest) (by simpa using hq)
        rw [start_loop_hit todo i s w y l1 hb hx (hok y (List.mem_cons_self _ _))]
        obtain ⟨s1, w1, k0, k1, k2, k3, k4⟩ := ih (i + 1)
          { s with buffers := (s.buffers.set i
              { (s.buffers.getD i zero_buffer) with info := fresh_info i }) }
          { w with qbuf := l1, log := w.log ++ [Event.VIDIOC_QBUF (fresh_info i)] }
          ys1 yrest hs
          (by simp only [mapped_from_set_info]; simpa using hl)
          (fun y1 h1 => hok y1 (List.mem_cons_of_mem _ h1))
        refine ⟨s1, w1, k0, ?_, k2, k3, k4⟩
        rw [k1, mapped_from_succ, if_pos hb]
        simp only [mapped_from_set_info, List.map_cons, List.append_assoc, List.singleton_append]
    · rw [mapped_from_succ, if_neg hb] at hl
      rw [start_loop_skip todo i s w hb]
      obtain ⟨s1, w1, k0, k1, k2, k3, k4⟩ := ih (i + 1) s w ys yrest hq hl hok
      refine ⟨s1, w1, k0, ?_, k2, k3, k4⟩
      rw [k1, mapped_from_succ, if_neg hb]

theorem start_loop_rejected (todo : Nat) : ∀ (i : Nat) (s : vid_capture) (w : World)
    (ys : List (Ret Unit)) (y : Ret Unit) (yrest : List (Ret Unit)),
    served w.qbuf = ys ++ y :: yrest →
    ys.length < (mapped_from s.buffers i todo).length →
    (∀ y1 ∈ ys, y1.r ≠ -1) → y.r = -1 →
    ∃ s1 w1, vid_capture.start_loop todo i s w = Res.fatal 1 Diag.errno_VIDIOC_QBUF s1 w1 ∧
      w1.log = w.log ++
        ((mapped_from s.buffers i todo).take (ys.length + 1)).map
          (fun j => Event.VIDIOC_QBUF (fresh_info j)) ∧
      w1.streamon = w.streamon := by
  induction todo with
  | zero =>
    intro i s w ys y yrest _ hl _ _
    simp [mapped_from] at hl
  | succ todo ih =>
    intro i s w ys y yrest hq hl hok hy
    by_cases hb : (s.buffers.getD i zero_buffer).length > 0
    · rw [mapped_from_succ, if_pos hb] at hl
      match ys, hl, hq, hok with
      | [], _, hq, _ =>
        obtain ⟨l1, hx, _⟩ := xioctl_served w.qbuf y yrest (by simpa using hq)
        rw [start_loop_fail todo i s w y l1 hb hx hy]
        refine ⟨_, _, rfl, ?_, rfl⟩
        rw [mapped_from_succ, if_pos hb]
        simp
      | y0 :: ys1, hl, hq, hok =>
        obtain ⟨l1, hx, hs⟩ := xioctl_served w.qbuf y0 (ys1 ++ y :: yrest) (by simpa using hq)
        rw [start_loop_hit todo i s w y0 l1 hb hx (hok y0 (List.mem_cons_self _ _))]
        obtain ⟨s1, w1, k0, k1, k3⟩ := ih (i + 1)
          { s with buffers := (s.buffers.set i
              { (s.buffers.getD i zero_buffer) with info := fresh_info i }) }
          { w with qbuf := l1, log := w.log ++ [Event.VIDIOC_QBUF (fresh_info i)] }
          ys1 y yrest hs
          (by simp only [mapped_from_set_info]; simpa using hl)
          (fun y1 h1 => hok y1 (List.mem_cons_of_mem _ h1)) hy
        refine ⟨s1, w1, k0, ?_, k3⟩
        rw [k1, mapped_from_succ, if_pos hb]
        simp only [mapped_from_set_info, List.length_cons, List.take_succ_cons, List.map_cons,
          List.append_assoc, List.singleton_append]
    · rw [mapped_from_succ, if_neg hb] at hl
      rw [start_loop_skip todo i s w hb]
      obtain ⟨s1, w1, k0, k1, k3⟩ := ih (i + 1) s w ys y yrest hq hl hok hy
      refine ⟨s1, w1, k0, ?_, k3⟩
      rw [k1, mapped_from_succ, if_neg hb]

theorem mem_mapped_indices (s : vid_capture) (i : Nat) :
    i ∈ mapped_indices s ↔ i < s.n_buffers ∧ (s.buffers.getD i zero_buffer).length > 0 := by
  unfold mapped_indices mapped_from
  rw [List.mem_filter, List.mem_range'_1]
  simp

theorem mapped_indices_sorted (s : vid_capture) :
    List.Pairwise (fun a b => a < b) (mapped_indices s) := by
  unfold mapped_indices mapped_from
  rw [← List.range_eq_range']
  exact List.Pairwise.filter _ (List.pairwise_lt_range _)

/-! Helper lemmas: what a successful `map()` and `start()` leave in the table. -/

theorem map_loop_inv (todo : Nat) : ∀ (i : Nat) (s : vid_capture) (w : World)
    (s1 : vid_capture) (w1 : World),
    s.buffers.length = s.n_buffers →
    vid_capture.map_loop todo i s w = Res.ok () s1 w1 →
    s1.n_buffers = s.n_buffers ∧ s1.buffers.length = s.buffers.length ∧
    (∀ j, i ≤ j → j < i + todo →
      j < s.n_buffers ∧ names_buffer j (s1.buffers.getD j zero_buffer).info) ∧
    (∀ j, j < i → s1.buffers.getD j zero_buffer = s.buffers.getD j zero_buffer) := by
  induction todo with
  | zero =>
    intro i s w s1 w1 _ h
    rw [vid_capture.map_loop] at h
    cases h
    exact ⟨rfl, rfl, fun j h1 h2 => by omega, fun j _ => rfl⟩
  | succ todo ih =>
    intro i s w s1 w1 hlen h
    by_cases hn : s.n_buffers ≤ i
    · exact absurd h (by simp [vid_capture.map_loop, hn])
    · cases hx : xioctl w.querybuf with
      | none => exact absurd h (by simp [vid_capture.map_loop, hn, hx])
      | some p =>
        obtain ⟨q, qrest⟩ := p
        by_cases hr : q.r = -1
        · exact absurd h (by simp [vid_capture.map_loop, hn, hx, hr, FAIL])
        · cases hm : w.mmap with
          | nil => exact absurd h (by simp [vid_capture.map_loop, hn, hx, hr, hm])
          | cons addr mrest =>
            by_cases hp : MAP_FAILED = w.past_end
            · exact absurd h (by simp [vid_capture.map_loop, hn, hx, hr, hm, hp, FAIL])
            · rw [map_loop_step todo i s w q qrest addr mrest (by omega) hx hr hm hp] at h
              obtain ⟨k1, k2, k3, k4⟩ := ih (i + 1) _ _ s1 w1
                (by simp only [List.length_set]; exact hlen) h
              have hil : i < s.buffers.length := by omega
              refine ⟨k1, ?_, ?_, ?_⟩
              · rw [k2]; exact List.length_set _ _ _
              · intro j hj1 hj2
                by_cases hij : j = i
                · subst hij
                  refine ⟨by omega, ?_⟩
                  rw [k4 j (by omega)]
                  simp only []
                  rw [getD_set, if_pos ⟨rfl, hil⟩]
                  unfold names_buffer mapped_buf
                  exact ⟨rfl, rfl, rfl⟩
                · exact k3 j (by omega) (by omega)
              · intro j hj
                rw [k4 j (by omega)]
                simp only [getD_set]
                rw [if_neg (fun hc => by omega)]

theorem map_inv (s : vid_capture) (w : World) (req : Ret Nat) (rrest : List (Ret Nat))
    (s1 : vid_capture) (w1 : World)
    (hlen : s.buffers.length = s.n_buffers)
    (hreq : served w.reqbufs = req :: rrest)
    (h : s.map w = Res.ok () s1 w1) :
    s1.n_buffers = s.n_buffers ∧ req.out ≤ s.n_buffers ∧
    (∀ j, j < req.out → names_buffer j (s1.buffers.getD j zero_buffer).info) := by
  obtain ⟨l1, hx, _⟩ := xioctl_served w.reqbufs req rrest hreq
  by_cases hr : req.r = -1
  · by_cases he : req.errno = EINVAL
    · exact absurd h (by simp [vid_capture.map, hx, hr, he, FAIL])
    · exact absurd h (by simp [vid_capture.map, hx, hr, he, FAIL])
  · by_cases h2 : req.out < 2
    · exact absurd h (by simp [vid_capture.map, hx, hr, h2, FAIL])
    · simp only [vid_capture.map, hx, hr, h2, if_false] at h
      have hu := unmap_loop_spec s.n_buffers 0 s
        { w with reqbufs := l1, log := w.log ++ [Event.VIDIOC_REQBUFS (u32 s.n_buffers)] }
      obtain ⟨u1, _, _, u4, _⟩ := hu
      obtain ⟨k1, _, k3, _⟩ := map_loop_inv req.out 0 _ _ s1 w1
        (by unfold vid_capture.unmap; rw [u1, u4]; exact hlen) h
      have hn : (vid_capture.unmap s
          { w with reqbufs := l1,
                   log := w.log ++ [Event.VIDIOC_REQBUFS (u32 s.n_buffers)] }).1.n_buffers
            = s.n_buffers := u1
      refine ⟨by rw [k1]; exact hn, ?_, ?_⟩
      · have hlast := (k3 (req.out - 1) (by omega) (by omega)).1
        rw [hn] at hlast
        omega
      · intro j hj
        exact (k3 j (by omega) (by omega)).2

theorem start_loop_inv (todo : Nat) : ∀ (i : Nat) (s : vid_capture) (w : World)
    (s1 : vid_capture) (w1 : World),
    vid_capture.start_loop todo i s w = Res.ok () s1 w1 →
    s1.n_buffers = s.n_buffers ∧
    (∀ j, names_buffer j (s.buffers.getD j zero_buffer).info →
      names_buffer j (s1.buffers.getD j zero_buffer).info) := by
  induction todo with
  | zero =>
    intro i s w s1 w1 h
    rw [vid_capture.start_loop] at h
    cases h
    exact ⟨rfl, fun j hj => hj⟩
  | succ todo ih =>
    intro i s w s1 w1 h
    by_cases hb : (s.buffers.getD i zero_buffer).length > 0
    · cases hx : xioctl w.qbuf with
      | none =>
        have hne : vid_capture.start_loop (todo + 1) i s w = Res.blocked := by
          rw [vid_capture.start_loop]
          simp only [hb, if_true, hx]
        rw [hne] at h
        cases h
      | some p =>
        obtain ⟨q, qrest⟩ := p
        by_cases hr : q.r = -1
        · rw [start_loop_fail todo i s w q qrest hb hx hr] at h
          cases h
        · rw [start_loop_hit todo i s w q qrest hb hx hr] at h
          obtain ⟨k1, k2⟩ := ih (i + 1) _ _ s1 w1 h
          refine ⟨k1, ?_⟩
          intro j hj
          apply k2 j
          simp only [getD_set]
          by_cases hij : i = j ∧ i < s.buffers.length
          · rw [if_pos hij, ← hij.1]
            unfold names_buffer fresh_info
            exact ⟨rfl, rfl, rfl⟩
          · rw [if_neg hij]
            exact hj
    · rw [start_loop_skip todo i s w hb] at h
      exact ih (i + 1) s w s1 w1 h

theorem start_inv (s : vid_capture) (w : World) (s2 : vid_capture) (w2 : World)
    (h : s.start w = Res.ok () s2 w2) :
    s2.n_buffers = s.n_buffers ∧
    (∀ j, names_buffer j (s.buffers.getD j zero_buffer).info →
      names_buffer j (s2.buffers.getD j zero_buffer).info) := by
  cases hl : vid_capture.start_loop s.n_buffers 0 s w with
  | ok a s1 w1 =>
    cases hx : xioctl w1.streamon with
    | none => exact absurd h (by simp [vid_capture.start, hl, hx])
    | some p =>
      obtain ⟨x, rest⟩ := p
      by_cases hr : x.r = -1
      · exact absurd h (by simp [vid_capture.start, hl, hx, hr, FAIL])
      · simp only [vid_capture.start, hl, hx, hr, if_false] at h
        cases h
        exact start_loop_inv s.n_buffers 0 s w _ _ hl
  | fatal st d s1 w1 => exact absurd h (by simp [vid_capture.start, hl])
  | undefined => exact absurd h (by simp [vid_capture.start, hl])
  | blocked => exact absurd h (by simp [vid_capture.start, hl])

/-! Helper lemmas: the acquisition loop. -/

theorem copies_append (a b : List Event) : copies (a ++ b) = copies a ++ copies b := by
  induction a with
  | nil => rfl
  | cons e a ih => cases e <;> simp [copies, ih]

theorem releases_append (a b : List Event) :
    releases (a ++ b) = releases a ++ releases b := by
  induction a with
  | nil => rfl
  | cons e a ih => cases e <;> simp [releases, ih]

theorem served_length_le {α : Type} (l : List (Ret α)) : (served l).length ≤ l.length :=
  List.length_filter_le _ _

theorem wait_loop_spec (s : vid_capture) (w : World) (x : Ret Unit) (rest : List (Ret Unit))
    (hr : x.r ≠ -1) : ∀ (l : List (Ret Unit)) (log : List Event),
    served l = x :: rest →
    ∃ l1 log1, vid_capture.wait_loop s w l log =
        Res.ok (decide (x.r ≠ 0)) s { w with select := l1, log := log1 } ∧
      served l1 = rest ∧ copies log1 = copies log ∧ releases log1 = releases log := by
  intro l
  induction l with
  | nil => intro log h; simp [served] at h
  | cons e l ih =>
    intro log h
    cases he : isEINTR e with
    | true =>
      have h1 : served l = x :: rest := by simpa [served, he] using h
      obtain ⟨her, hee⟩ := (isEINTR_iff e).1 he
      obtain ⟨l1, log1, k0, k1, k2, k3⟩ := ih (log ++ [Event.select 2 0]) h1
      refine ⟨l1, log1, ?_, k1, ?_, ?_⟩
      · simp only [vid_capture.wait_loop, her, hee, if_true]
        exact k0
      · rw [k2, copies_append]; simp [copies]
      · rw [k3, releases_append]; simp [releases]
    | false =>
      have h1 : e :: served l = x :: rest := by simpa [served, he] using h
      injection h1 with h2 h3
      subst h2
      refine ⟨l, log ++ [Event.select 2 0], ?_, h3, ?_, ?_⟩
      · by_cases h0 : e.r = 0
        · simp [vid_capture.wait_loop, hr, h0]
        · simp [vid_capture.wait_loop, hr, h0]
      · rw [copies_append]; simp [copies]
      · rw [releases_append]; simp [releases]

theorem toInt32_small (k : Nat) (h : k < 2147483648) : toInt32 k = (k : Int) := by
  have hk : k % 4294967296 = k := Nat.mod_eq_of_lt (by omega)
  simp only [toInt32, hk]
  rw [if_pos h]

theorem get_frame (s : vid_capture) (w : World) (x : Ret Nat) (rest : List (Ret Nat))
    (hwf : s.wf) (h : served w.dqbuf = x :: rest) (hr : x.r ≠ -1)
    (hlt : x.out < s.n_buffers) :
    ∃ w1, s.get w = Res.ok (x.out : Int) s w1 ∧
      w1.log = w.log ++ [Event.VIDIOC_DQBUF] ∧
      served w1.dqbuf = rest ∧ w1.qbuf = w.qbuf := by
  obtain ⟨l1, hx, hs⟩ := xioctl_served w.dqbuf x rest h
  refine ⟨{ w with dqbuf := l1, log := w.log ++ [Event.VIDIOC_DQBUF] }, ?_, rfl, hs, rfl⟩
  have hi : ¬ x.out ≥ s.n_buffers := by omega
  have hc := toInt32_small x.out (by have := hwf.2; omega)
  simp only [vid_capture.get, hx, hr, if_false, hi, hc]

theorem get_drained (s : vid_capture) (w : World) (e : Ret Nat) (rest : List (Ret Nat))
    (h : served w.dqbuf = e :: rest) (hr : e.r = -1) (he : e.errno = EAGAIN) :
    ∃ w1, s.get w = Res.ok (-1) s w1 ∧
      w1.log = w.log ++ [Event.VIDIOC_DQBUF] ∧
      served w1.dqbuf = rest ∧ w1.qbuf = w.qbuf := by
  obtain ⟨l1, hx, hs⟩ := xioctl_served w.dqbuf e rest h
  refine ⟨{ w with dqbuf := l1, log := w.log ++ [Event.VIDIOC_DQBUF] }, ?_, rfl, hs, rfl⟩
  simp only [vid_capture.get, hx, hr, he, if_true]

theorem release_ok (s : vid_capture) (w : World) (i : Int) (y : Ret Unit)
    (yrest : List (Ret Unit))
    (h0 : 0 ≤ i) (hlt : i < (s.n_buffers : Int))
    (h : served w.qbuf = y :: yrest) (hr : y.r ≠ -1) :
    ∃ w1, s.release w i = Res.ok () s w1 ∧
      w1.log = w.log ++ [Event.VIDIOC_QBUF (s.buffers.getD i.toNat zero_buffer).info] ∧
      served w1.qbuf = yrest ∧ w1.dqbuf = w.dqbuf := by
  obtain ⟨l1, hx, hs⟩ := xioctl_served w.qbuf y yrest h
  refine ⟨{ w with qbuf := l1,
                   log := w.log ++ [Event.VIDIOC_QBUF (s.buffers.getD i.toNat zero_buffer).info] },
    ?_, rfl, hs, rfl⟩
  have hrange : ¬ (i < 0 ∨ i ≥ (s.n_buffers : Int)) := by omega
  simp only [vid_capture.release, hrange, hx, hr, if_false]

theorem release_any (s : vid_capture) (w : World) (i : Int) (y : Ret Unit)
    (yrest : List (Ret Unit))
    (h0 : 0 ≤ i) (hlt : i < (s.n_buffers : Int))
    (h : served w.qbuf = y :: yrest) :
    ∃ w1, s.release w i =
        (if y.r = -1 then Res.fatal 1 Diag.errno_VIDIOC_QBUF s w1 else Res.ok () s w1) ∧
      w1.log = w.log ++ [Event.VIDIOC_QBUF (s.buffers.getD i.toNat zero_buffer).info] ∧
      served w1.qbuf = yrest ∧ w1.dqbuf = w.dqbuf := by
  obtain ⟨l1, hx, hs⟩ := xioctl_served w.qbuf y yrest h
  refine ⟨{ w with qbuf := l1,
                   log := w.log ++ [Event.VIDIOC_QBUF (s.buffers.getD i.toNat zero_buffer).info] },
    ?_, rfl, hs, rfl⟩
  have hrange : ¬ (i < 0 ∨ i ≥ (s.n_buffers : Int)) := by omega
  simp only [vid_capture.release, hrange, hx, if_false, FAIL]

theorem display_loop_done (fuel : Nat) (frameid : Int) (s : vid_capture) (w : World)
    (h : frameid < 0) : display_loop fuel frameid s w = Res.ok () s w := by
  cases fuel with
  | zero => rw [display_loop]; exact if_pos h
  | succ k => rw [display_loop]; exact if_pos h

theorem display_loop_last (fuel : Nat) (frameid next : Int) (s : vid_capture)
    (w w1 w4 : World) (y : Ret Unit) (h : ¬ frameid < 0) (hn : next < 0)
    (hg : s.get w = Res.ok next s w1)
    (hrel : s.release
      ((w1.record (Event.memcpy frameid (vid_capture.data s frameid)
          (vid_capture.bytesperframe s))).record (Event.release frameid)) frameid
        = (if y.r = -1 then Res.fatal 1 Diag.errno_VIDIOC_QBUF s w4 else Res.ok () s w4)) :
    display_loop (fuel + 1) frameid s w =
      (if y.r = -1 then Res.fatal 1 Diag.errno_VIDIOC_QBUF s w4 else Res.ok () s w4) := by
  rw [display_loop]
  simp only [h, if_false, hg, hn, if_true, hrel]
  by_cases hy : y.r = -1
  · simp only [hy, if_true]
  · simp only [hy, if_false]
    exact display_loop_done _ _ _ _ hn

theorem display_loop_skip (fuel : Nat) (frameid next : Int) (s : vid_capture)
    (w w1 w4 : World) (h : ¬ frameid < 0) (hn : ¬ next < 0)
    (hg : s.get w = Res.ok next s w1)
    (hrel : s.release (w1.record (Event.release frameid)) frameid = Res.ok () s w4) :
    display_loop (fuel + 1) frameid s w = display_loop fuel next s w4 := by
  rw [display_loop]
  simp only [h, if_false, hg, hn, hrel]

theorem display_loop_spec (s : vid_capture) (hwf : s.wf)
    (e : Ret Nat) (rest : List (Ret Nat)) (y : Ret Unit) (yrest : List (Ret Unit))
    (her : e.r = -1) (hee : e.errno = EAGAIN) :
    ∀ (xs : List (Ret Nat)) (fuel : Nat) (frameid : Int) (w : World) (ys : List (Ret Unit)),
    0 ≤ frameid → frameid < (s.n_buffers : Int) →
    served w.dqbuf = xs ++ e :: rest →
    (∀ x ∈ xs, x.r ≠ -1 ∧ x.out < s.n_buffers) →
    served w.qbuf = ys ++ y :: yrest → ys.length = xs.length → (∀ y1 ∈ ys, y1.r ≠ -1) →
    xs.length + 1 ≤ fuel →
    ∃ w1, display_loop fuel frameid s w =
        (if y.r = -1 then Res.fatal 1 Diag.errno_VIDIOC_QBUF s w1 else Res.ok () s w1) ∧
      copies w1.log = copies w.log ++
        [((xs.map (fun x => (x.out : Int))).getLastD frameid,
          vid_capture.data s ((xs.map (fun x => (x.out : Int))).getLastD frameid),
          vid_capture.bytesperframe s)] ∧
      releases w1.log = releases w.log ++ frameid :: xs.map (fun x => (x.out : Int)) ∧
      served w1.dqbuf = rest ∧ served w1.qbuf = yrest := by
  intro xs
  induction xs with
  | nil =>
    intro fuel frameid w ys hf0 hfn hdq _ hq hyl _ hfuel
    obtain ⟨fuel1, rfl⟩ : ∃ k, fuel = k + 1 := ⟨fuel - 1, by simp at hfuel; omega⟩
    match ys, hyl, hq with
    | [], _, hq =>
      obtain ⟨w1, hg, hl1, hs1, hq1⟩ := get_drained s w e rest (by simpa using hdq) her hee
      have hneg : ((-1 : Int) < 0) := by decide
      obtain ⟨w4, hrel, hl4, hs4, hd4⟩ := release_any s
        ((w1.record (Event.memcpy frameid (vid_capture.data s frameid)
          (vid_capture.bytesperframe s))).record (Event.release frameid))
        frameid y yrest hf0 hfn
        (by simp only [World.record]; rw [hq1]; simpa using hq)
      refine ⟨w4, ?_, ?_, ?_, ?_, ?_⟩
      · exact display_loop_last fuel1 frameid (-1) s w w1 w4 y (by omega) hneg hg hrel
      · rw [hl4]
        simp only [World.record]
        rw [hl1]
        simp [copies_append, copies, List.getLastD]
      · rw [hl4]
        simp only [World.record]
        rw [hl1]
        simp [releases_append, releases]
      · rw [hd4]
        exact hs1
      · exact hs4
  | cons x xs ih =>
    intro fuel frameid w ys hf0 hfn hdq hxok hq hyl hyok hfuel
    obtain ⟨fuel1, rfl⟩ : ∃ k, fuel = k + 1 := ⟨fuel - 1, by simp at hfuel; omega⟩
    match ys, hyl, hq, hyok with
    | y0 :: ys1, hyl, hq, hyok =>
      obtain ⟨hxr, hxlt⟩ := hxok x (List.mem_cons_self _ _)
      obtain ⟨w1, hg, hl1, hs1, hq1⟩ :=
        get_frame s w x (xs ++ e :: rest) hwf (by simpa using hdq) hxr hxlt
      have hnx : ¬ ((x.out : Int) < 0) := by omega
      obtain ⟨w4, hrel, hl4, hs4, hd4⟩ := release_ok s
        (w1.record (Event.release frameid))
        frameid y0 (ys1 ++ y :: yrest) hf0 hfn
        (by simp only [World.record]; rw [hq1]; simpa using hq)
        (hyok y0 (List.mem_cons_self _ _))
      obtain ⟨w5, k0, k1, k2, k3, k4⟩ := ih fuel1 (x.out : Int) w4 ys1
        (by omega) (by omega)
        (by rw [hd4]; exact hs1)
        (fun x1 hx1 => hxok x1 (List.mem_cons_of_mem _ hx1)) hs4
        (by simpa using hyl)
        (fun y1 hy1 => hyok y1 (List.mem_cons_of_mem _ hy1))
        (by simp at hfuel; omega)
      refine ⟨w5, ?_, ?_, ?_, k3, k4⟩
      · rw [display_loop_skip fuel1 frameid (x.out : Int) s w w1 w4 (by omega) hnx hg hrel]
        exact k0
      · rw [k1, hl4]
        simp only [World.record]
        rw [hl1]
        simp only [copies_append, copies, List.map_cons, List.getLastD_cons,
          List.append_nil, List.append_assoc]
      · rw [k2, hl4]
        simp only [World.record]
        rw [hl1]
        simp only [releases_append, releases, List.map_cons,
          List.append_nil, List.append_assoc, List.nil_append, List.cons_append,
          List.singleton_append]

theorem wait_spec (s : vid_capture) (w : World) (x : Ret Unit) (rest : List (Ret Unit))
    (h : served w.select = x :: rest) (hr : x.r ≠ -1) :
    ∃ w1, s.wait w = Res.ok (decide (x.r ≠ 0)) s w1 ∧
      copies w1.log = copies w.log ∧ releases w1.log = releases w.log ∧
      w1.dqbuf = w.dqbuf ∧ w1.qbuf = w.qbuf ∧ served w1.select = rest := by
  obtain ⟨l1, log1, k0, k1, k2, k3⟩ := wait_loop_spec s w x rest hr w.select w.log h
  exact ⟨{ w with select := l1, log := log1 }, k0, k2, k3, rfl, rfl, k1⟩

theorem display_spec (s : vid_capture) (w : World)
    (sel : Ret Unit) (selrest : List (Ret Unit))
    (x0 : Ret Nat) (xs : List (Ret Nat)) (e : Ret Nat) (rest : List (Ret Nat))
    (ys : List (Ret Unit)) (y : Ret Unit) (yrest : List (Ret Unit))
    (hwf : s.wf)
    (hsel : served w.select = sel :: selrest) (hselr : sel.r ≠ -1)
    (hdq : served w.dqbuf = (x0 :: xs) ++ e :: rest)
    (hok : ∀ x ∈ x0 :: xs, x.r ≠ -1 ∧ x.out < s.n_buffers)
    (her : e.r = -1) (hee : e.errno = EAGAIN)
    (hq : served w.qbuf = ys ++ y :: yrest) (hyl : ys.length = xs.length)
    (hyok : ∀ y1 ∈ ys, y1.r ≠ -1) :
    ∃ w1, display s w =
        (if y.r = -1 then Res.fatal 1 Diag.errno_VIDIOC_QBUF s w1 else Res.ok () s w1) ∧
      copies w1.log = copies w.log ++
        [((xs.map (fun x => (x.out : Int))).getLastD (x0.out : Int),
          vid_capture.data s ((xs.map (fun x => (x.out : Int))).getLastD (x0.out : Int)),
          vid_capture.bytesperframe s)] ∧
      releases w1.log = releases w.log ++ (x0 :: xs).map (fun x => (x.out : Int)) := by
  obtain ⟨wa, ha, ca, ra, da, qa, _⟩ := wait_spec s w sel selrest hsel hselr
  obtain ⟨hx0r, hx0lt⟩ := hok x0 (List.mem_cons_self _ _)
  obtain ⟨wb, hb, lb, sb, qb⟩ := get_frame s wa x0 (xs ++ e :: rest) hwf
    (by rw [da]; simpa using hdq) hx0r hx0lt
  have hfuel : xs.length + 1 ≤ wb.dqbuf.length + 1 := by
    have h1 := served_length_le wb.dqbuf
    rw [sb] at h1
    simp at h1
    omega
  obtain ⟨w1, k0, k1, k2, _, _⟩ := display_loop_spec s hwf e rest y yrest her hee xs
    (wb.dqbuf.length + 1) (x0.out : Int) wb ys (by omega) (by omega) sb
    (fun x hx => hok x (List.mem_cons_of_mem _ hx))
    (by rw [qb, qa]; exact hq) hyl hyok hfuel
  refine ⟨w1, ?_, ?_, ?_⟩
  · simp only [display, ha, hb]
    exact k0
  · rw [k1, lb, copies_append, ca]
    simp [copies]
  · rw [k2, lb, releases_append, ra]
    simp [releases]

theorem getLastD_snoc {α β : Type} (f : α → β) (init : List α) (last x0 : α) (xs : List α)
    (h : init ++ [last] = x0 :: xs) : (xs.map f).getLastD (f x0) = f last := by
  cases init with
  | nil =>
    simp only [List.nil_append] at h
    injection h with h1 h2
    subst h1
    subst h2
    rfl
  | cons a init1 =>
    simp only [List.cons_append] at h
    injection h with h1 h2
    subst h1
    subst h2
    simp [List.getLastD_eq_getLast?]

/-! Helper lemmas: `wait()`. -/

theorem wait_loop_exact (s : vid_capture) (w : World) (x : Ret Unit) (rest : List (Ret Unit))
    (hx : ¬ (x.r = -1 ∧ x.errno = EINTR)) :
    ∀ (pre : List (Ret Unit)) (log : List Event),
    (∀ e ∈ pre, e.r = -1 ∧ e.errno = EINTR) →
    vid_capture.wait_loop s w (pre ++ x :: rest) log =
      (if x.r = -1 then
        Res.fatal 1 Diag.errno_select s
          { w with select := rest,
                   log := log ++ List.replicate (pre.length + 1) (Event.select 2 0) }
       else if x.r = 0 then
        Res.ok false s
          { w with select := rest,
                   log := log ++ List.replicate (pre.length + 1) (Event.select 2 0) }
       else
        Res.ok true s
          { w with select := rest,
                   log := log ++ List.replicate (pre.length + 1) (Event.select 2 0) }) := by
  intro pre
  induction pre with
  | nil =>
    intro log _
    by_cases h1 : x.r = -1
    · have he : x.errno ≠ EINTR := fun h => hx ⟨h1, h⟩
      simp [vid_capture.wait_loop, h1, he, FAIL]
    · by_cases h0 : x.r = 0
      · simp [vid_capture.wait_loop, h0]
      · simp [vid_capture.wait_loop, h1, h0]
  | cons e pre ih =>
    intro log hpre
    obtain ⟨her, hee⟩ := hpre e (List.mem_cons_self _ _)
    have hrest : ∀ e1 ∈ pre, e1.r = -1 ∧ e1.errno = EINTR :=
      fun e1 h1 => hpre e1 (List.mem_cons_of_mem _ h1)
    have hlog : (log ++ [Event.select 2 0]) ++ List.replicate (pre.length + 1) (Event.select 2 0)
        = log ++ List.replicate ((e :: pre).length + 1) (Event.select 2 0) := by
      rw [List.append_assoc]
      rfl
    simp only [List.cons_append, vid_capture.wait_loop, her, hee, if_true]
    have h := ih (log ++ [Event.select 2 0]) hrest
    rw [hlog] at h
    exact h

theorem copies_selects (n : Nat) (a b : Nat) :
    copies (List.replicate n (Event.select a b)) = [] := by
  induction n with
  | zero => rfl
  | succ n ih => simp [List.replicate_succ, copies, ih]

theorem releases_selects (n : Nat) (a b : Nat) :
    releases (List.replicate n (Event.select a b)) = [] := by
  induction n with
  | zero => rfl
  | succ n ih => simp [List.replicate_succ, releases, ih]

/-! Claims. -/

/-- C9. After the EINTR outcomes of VIDIOC_DQBUF have been retried, `get()`
returns -1 exactly when the driver fails with EAGAIN, exits with status 1 on
every other failure (EIO among them), returns the driver's index when the call
succeeds with an index below `n_buffers`, which then lies in [0, n_buffers),
and exits with status 1 when the index is `n_buffers` or more; whatever it
returns is -1 or lies in [0, n_buffers). -/
theorem get_classification (s : vid_capture) (w : World)
    (pre : List (Ret Nat)) (x : Ret Nat) (rest : List (Ret Nat))
    (hwf : s.wf)
    (hscript : w.dqbuf = pre ++ x :: rest)
    (hpre : ∀ e ∈ pre, e.r = -1 ∧ e.errno = EINTR)
    (hx : ¬ (x.r = -1 ∧ x.errno = EINTR)) :
    ((∃ s1 w1, s.get w = Res.ok (-1) s1 w1) ↔ (x.r = -1 ∧ x.errno = EAGAIN)) ∧
    (x.r = -1 → x.errno = EAGAIN →
      s.get w = Res.ok (-1) s { w with dqbuf := rest, log := w.log ++ [Event.VIDIOC_DQBUF] }) ∧
    (x.r = -1 → x.errno ≠ EAGAIN →
      s.get w = Res.fatal 1 Diag.errno_VIDIOC_DQBUF s
        { w with dqbuf := rest, log := w.log ++ [Event.VIDIOC_DQBUF] }) ∧
    (x.r = -1 → x.errno = EIO →
      s.get w = Res.fatal 1 Diag.errno_VIDIOC_DQBUF s
        { w with dqbuf := rest, log := w.log ++ [Event.VIDIOC_DQBUF] }) ∧
    (x.r ≠ -1 → x.out < s.n_buffers →
      s.get w = Res.ok (x.out : Int) s
        { w with dqbuf := rest, log := w.log ++ [Event.VIDIOC_DQBUF] }) ∧
    (x.r ≠ -1 → s.n_buffers ≤ x.out →
      s.get w = Res.fatal 1 (Diag.buffer_out_of_range x.out) s
        { w with dqbuf := rest, log := w.log ++ [Event.VIDIOC_DQBUF] }) ∧
    (∀ v s1 w1, s.get w = Res.ok v s1 w1 → v = -1 ∨ (0 ≤ v ∧ v < (s.n_buffers : Int))) := by
  have hxi : xioctl w.dqbuf = some (x, rest) := by
    rw [hscript]; exact xioctl_append pre x rest hpre hx
  have hconv : ∀ k : Nat, k < s.n_buffers → toInt32 k = (k : Int) := by
    intro k hk
    have h2 := hwf.2
    have hk' : k % 4294967296 = k := Nat.mod_eq_of_lt (by omega)
    simp only [toInt32, hk']
    rw [if_pos (by omega)]
  refine ⟨?_, ?_, ?_, ?_, ?_, ?_, ?_⟩
  · constructor
    · rintro ⟨s1, w1, h⟩
      simp only [vid_capture.get, hxi, FAIL] at h
      by_cases hr : x.r = -1
      · by_cases he : x.errno = EAGAIN
        · exact ⟨hr, he⟩
        · simp [hr, he] at h
      · exfalso
        by_cases hi : x.out ≥ s.n_buffers
        · simp [hr, hi] at h
        · have hlt : x.out < s.n_buffers := by omega
          simp only [hr, if_false, hi, hconv x.out hlt] at h
          injection h with h1
          omega
    · rintro ⟨hr, he⟩
      exact ⟨s, { w with dqbuf := rest, log := w.log ++ [Event.VIDIOC_DQBUF] },
        by simp [vid_capture.get, hxi, hr, he]⟩
  · intro hr he
    simp [vid_capture.get, hxi, hr, he]
  · intro hr he
    simp [vid_capture.get, hxi, hr, he, FAIL]
  · intro hr he
    have hne : x.errno ≠ EAGAIN := by rw [he]; decide
    simp [vid_capture.get, hxi, hr, hne, FAIL]
  · intro hr hlt
    have hi : ¬ x.out ≥ s.n_buffers := by omega
    simp only [vid_capture.get, hxi, hr, if_false, hi, hconv x.out hlt]
  · intro hr hge
    have hi : x.out ≥ s.n_buffers := hge
    simp only [vid_capture.get, hxi, hr, if_false, hi, if_true, FAIL]
  · intro v s1 w1 h
    simp only [vid_capture.get, hxi, FAIL] at h
    by_cases hr : x.r = -1
    · by_cases he : x.errno = EAGAIN
      · simp only [hr, he, if_true] at h
        injection h with h1
        left; exact h1.symm
      · simp [hr, he] at h
    · by_cases hi : x.out ≥ s.n_buffers
      · simp [hr, hi] at h
      · have hlt : x.out < s.n_buffers := by omega
        simp only [hr, if_false, hi, hconv x.out hlt] at h
        injection h with h1
        right; omega

/-- C9 at a concrete input: a pool of 4 buffers, one EINTR outcome, then the
driver hands out buffer 2; `get()` returns 2. -/
theorem get_classification_witness :
    vid_capture.get pool_vga world_one_frame
      = Res.ok 2 pool_vga { World.quiet with log := [Event.VIDIOC_DQBUF] } :=
  (get_classification pool_vga world_one_frame [err_ret EINTR 0] (ok_ret 2) []
    (by decide) rfl (by decide) (by decide)).2.2.2.2.1 (by decide) (by decide)

/-- C7. `unmap()` is idempotent: from every state, a second `unmap()` right
after a first one changes neither the object nor the world (so it logs no
munmap), and on a freshly constructed object `unmap()` changes nothing and
logs no munmap. -/
theorem unmap_idempotent (s : vid_capture) (w : World) :
    vid_capture.unmap (vid_capture.unmap s w).1 (vid_capture.unmap s w).2
      = vid_capture.unmap s w ∧
    (∀ (n : Nat) (w0 : World),
      vid_capture.unmap (vid_capture.construct n) w0 = (vid_capture.construct n, w0)) := by
  constructor
  · unfold vid_capture.unmap
    rw [(unmap_loop_spec s.n_buffers 0 s w).1]
    apply unmap_loop_noop
    intro j _ hj
    have h := (unmap_loop_spec s.n_buffers 0 s w).2.2.2.2 j
    rw [h]
    have hy : (0 ≤ j ∧ j < 0 + s.n_buffers) := by omega
    simp only [hy, and_self, if_true]
    exact unmap_buf_length _
  · intro n w0
    unfold vid_capture.unmap
    apply unmap_loop_noop
    intro j _ _
    simp only [vid_capture.construct, getD_replicate_zero]
    rfl

/-- C2, as stated, fails: the pool is built for 4 buffers, the driver grants 2,
`map()` succeeds, and `n_buffers` is still 4, not 2; `get()` afterwards accepts
the index 3 and `data( 2 )` passes the range check. -/
theorem map_keeps_requested_count :
    vid_capture.map (vid_capture.construct 4) world_grant_two
      = Res.ok () pool_four_grant_two world_after_grant_two ∧
    pool_four_grant_two.n_buffers = 4 ∧
    pool_four_grant_two.n_buffers ≠ 2 ∧
    vid_capture.get pool_four_grant_two { world_after_grant_two with dqbuf := [ok_ret 3] }
      = Res.ok 3 pool_four_grant_two
          { world_after_grant_two with
            log := world_after_grant_two.log ++ [Event.VIDIOC_DQBUF] } := by
  refine ⟨?_, ?_, ?_, ?_⟩ <;> decide

/-- C2, amended. On a well-formed pool with `n_buffers` at least 2, when the
driver grants `g` buffers with 2 <= g <= n_buffers, every VIDIOC_QUERYBUF
succeeds and the word past the table is not MAP_FAILED, `map()` succeeds and
`n_buffers`, the size every later operation uses, is unchanged (the requested
count); the entries below `g` hold what the driver and `mmap` reported and the
entries from `g` up to `n_buffers` are left with length 0. -/
theorem map_pool_size (s : vid_capture) (w : World)
    (req : Ret Nat) (rrest : List (Ret Nat))
    (qs qrest : List (Ret (Nat × Nat))) (ms mrest : List Nat)
    (hwf : s.wf) (hn : 2 ≤ s.n_buffers)
    (hreq : served w.reqbufs = req :: rrest) (hr : req.r ≠ -1)
    (h2 : 2 ≤ req.out) (hg : req.out ≤ s.n_buffers)
    (hp : MAP_FAILED ≠ w.past_end)
    (hq : served w.querybuf = qs ++ qrest) (hql : qs.length = req.out)
    (hqok : ∀ q ∈ qs, q.r ≠ -1)
    (hm : w.mmap = ms ++ mrest) (hml : ms.length = req.out) :
    ∃ s1 w1, s.map w = Res.ok () s1 w1 ∧
      s1.n_buffers = s.n_buffers ∧ 2 ≤ s1.n_buffers ∧
      s1.buffers.length = s.n_buffers ∧
      (∀ j, j < req.out → s1.buffers.getD j zero_buffer =
        mapped_buf j ((qs.getD j ⟨0, 0, (0, 0)⟩).out) (ms.getD j 0)) ∧
      (∀ j, req.out ≤ j → j < s.n_buffers →
        (s1.buffers.getD j zero_buffer).length = 0) := by
  obtain ⟨s1, w1, h0, k1, _, _, k4, k5, _⟩ :=
    map_spec s w req rrest qs qrest ms mrest hwf.1 hreq hr h2 hg hp hq hql hqok hm hml
  refine ⟨s1, w1, h0, k1, by omega, by rw [k4]; exact hwf.1, ?_, ?_⟩
  · intro j hj
    rw [k5 j, if_pos hj]
  · intro j hj hjn
    have hnj : ¬ j < req.out := by omega
    rw [k5 j, if_neg hnj, if_pos hjn]
    exact unmap_buf_length _

/-- C2, amended, at a concrete input: 4 buffers requested, 2 granted. -/
theorem map_pool_size_witness :
    ∃ s1 w1, vid_capture.map (vid_capture.construct 4) world_grant_two = Res.ok () s1 w1 ∧
      s1.n_buffers = 4 ∧ 2 ≤ s1.n_buffers ∧
      s1.buffers.length = 4 ∧
      (∀ j, j < 2 → s1.buffers.getD j zero_buffer =
        mapped_buf j
          (([ok_ret (614400, 0), ok_ret (614400, 614400)].getD j ⟨0, 0, (0, 0)⟩).out)
          ([0x7f0000000000, 0x7f0000100000].getD j 0)) ∧
      (∀ j, 2 ≤ j → j < 4 → (s1.buffers.getD j zero_buffer).length = 0) :=
  map_pool_size (vid_capture.construct 4) world_grant_two (ok_ret 2) []
    [ok_ret (614400, 0), ok_ret (614400, 614400)] []
    [0x7f0000000000, 0x7f0000100000] []
    (by decide) (by decide) (by decide) (by decide) (by decide) (by decide) (by decide)
    (by decide) (by decide) (by decide) (by decide) (by decide)

/-- C3 fails on the code: the pool has 4 buffers, the driver grants 4 and the
`mmap` of buffer 1 returns MAP_FAILED; `map()` compares the word past the table
with MAP_FAILED, not `buffers[1].start`, so it runs to its end and leaves
MAP_FAILED recorded as the start of buffer 1, which `data( 1 )` then returns. -/
theorem map_ignores_failed_mmap :
    vid_capture.map (vid_capture.construct 4) world_second_mmap_fails
      = Res.ok () pool_second_mmap_failed world_after_second_mmap_failed ∧
    (pool_second_mmap_failed.buffers.getD 1 zero_buffer).start = MAP_FAILED ∧
    vid_capture.data pool_second_mmap_failed 1 = MAP_FAILED := by
  refine ⟨?_, ?_, ?_⟩ <;> decide

/-- C4. When VIDIOC_REQBUFS succeeds (EINTR outcomes retried) and grants fewer
than 2 buffers, `map()` exits with status 1; at the exit the object is
unchanged, the log has gained the VIDIOC_REQBUFS entry only (no
VIDIOC_QUERYBUF, no mmap, no munmap) and only the VIDIOC_REQBUFS script has
been consumed. -/
theorem map_insufficient (s : vid_capture) (w : World)
    (pre : List (Ret Nat)) (x : Ret Nat) (rest : List (Ret Nat))
    (hscript : w.reqbufs = pre ++ x :: rest)
    (hpre : ∀ e ∈ pre, e.r = -1 ∧ e.errno = EINTR)
    (hr : x.r ≠ -1) (hlt : x.out < 2) :
    s.map w = Res.fatal 1 (Diag.insufficient_buffer_memory x.out) s
      { w with reqbufs := rest,
               log := w.log ++ [Event.VIDIOC_REQBUFS (u32 s.n_buffers)] } := by
  have hx : xioctl w.reqbufs = some (x, rest) := by
    rw [hscript]
    exact xioctl_append pre x rest hpre (fun h => hr h.1)
  simp only [vid_capture.map, hx, hr, hlt, if_false, if_true, FAIL]

/-- C4 at a concrete input (the driver grants 1 buffer): `map()` exits with
status 1 and only VIDIOC_REQBUFS has been issued. -/
theorem map_insufficient_witness :
    vid_capture.map (vid_capture.construct 4) world_grant_one
      = Res.fatal 1 (Diag.insufficient_buffer_memory 1) (vid_capture.construct 4)
          { World.quiet with log := [Event.VIDIOC_REQBUFS 4] } :=
  map_insufficient (vid_capture.construct 4) world_grant_one [] (ok_ret 1) []
    rfl (by decide) (by decide) (by decide)

/-- C5, as stated, fails: after `map()` succeeded on a pool of size 4 with 2
buffers granted, the index 2 lies in [0, n_buffers) and `data( 2 )` is NULL. -/
theorem data_null_below_pool_size :
    vid_capture.map (vid_capture.construct 4) world_grant_two
      = Res.ok () pool_four_grant_two world_after_grant_two ∧
    (0 : Int) ≤ 2 ∧ (2 : Int) < (pool_four_grant_two.n_buffers : Int) ∧
    vid_capture.data pool_four_grant_two 2 = NULL := by
  refine ⟨?_, ?_, ?_, ?_⟩ <;> decide

/-- C5, amended. After `map()` succeeds on a well-formed pool where the driver
granted `g` buffers, 2 <= g <= n_buffers, and every `mmap` returned a valid
address (neither NULL nor MAP_FAILED), `data( i )` returns the address `mmap`
returned for buffer `i`, which is neither NULL nor MAP_FAILED, for every `i`
in [0, g). -/
theorem map_data_nonnull (s : vid_capture) (w : World)
    (req : Ret Nat) (rrest : List (Ret Nat))
    (qs qrest : List (Ret (Nat × Nat))) (ms mrest : List Nat)
    (hwf : s.wf)
    (hreq : served w.reqbufs = req :: rrest) (hr : req.r ≠ -1)
    (h2 : 2 ≤ req.out) (hg : req.out ≤ s.n_buffers)
    (hp : MAP_FAILED ≠ w.past_end)
    (hq : served w.querybuf = qs ++ qrest) (hql : qs.length = req.out)
    (hqok : ∀ q ∈ qs, q.r ≠ -1)
    (hm : w.mmap = ms ++ mrest) (hml : ms.length = req.out)
    (hvalid : ∀ m ∈ ms, m ≠ NULL ∧ m ≠ MAP_FAILED) :
    ∃ s1 w1, s.map w = Res.ok () s1 w1 ∧
      ∀ i : Int, 0 ≤ i → i < (req.out : Int) →
        vid_capture.data s1 i = ms.getD i.toNat 0 ∧
        vid_capture.data s1 i ≠ NULL ∧ vid_capture.data s1 i ≠ MAP_FAILED := by
  obtain ⟨s1, w1, h0, k1, _, _, _, k5, _⟩ :=
    map_spec s w req rrest qs qrest ms mrest hwf.1 hreq hr h2 hg hp hq hql hqok hm hml
  refine ⟨s1, w1, h0, ?_⟩
  intro i hi0 hig
  have hlt : i.toNat < req.out := by omega
  have hrange : ¬ (i < 0 ∨ i ≥ (s1.n_buffers : Int)) := by
    rw [k1]; omega
  have hd : vid_capture.data s1 i = ms.getD i.toNat 0 := by
    unfold vid_capture.data
    rw [if_neg hrange, k5 i.toNat, if_pos hlt]
    rfl
  have hmem : ms.getD i.toNat 0 ∈ ms := by
    have hl : i.toNat < ms.length := by omega
    rw [List.getD_eq_getElem _ _ hl]
    exact List.getElem_mem hl
  rw [hd]
  exact ⟨rfl, hvalid _ hmem⟩

/-- C5, amended, at a concrete input: 4 buffers requested, 2 granted and mapped. -/
theorem map_data_nonnull_witness :
    ∃ s1 w1, vid_capture.map (vid_capture.construct 4) world_grant_two = Res.ok () s1 w1 ∧
      ∀ i : Int, 0 ≤ i → i < 2 →
        vid_capture.data s1 i = [0x7f0000000000, 0x7f0000100000].getD i.toNat 0 ∧
        vid_capture.data s1 i ≠ NULL ∧ vid_capture.data s1 i ≠ MAP_FAILED :=
  map_data_nonnull (vid_capture.construct 4) world_grant_two (ok_ret 2) []
    [ok_ret (614400, 0), ok_ret (614400, 614400)] []
    [0x7f0000000000, 0x7f0000100000] []
    (by decide) (by decide) (by decide) (by decide) (by decide) (by decide) (by decide)
    (by decide) (by decide) (by decide) (by decide) (by decide)

/-- C6 fails on the code: the pool has 4 buffers, the driver grants 4, reports
length 0 for buffer 0, and the `mmap` of buffer 0 returns MAP_FAILED. `map()`
runs to its end; `data( 0 )` is then MAP_FAILED although buffer 0 is not
mapped, and after `unmap()`, which skips entries of length 0 and logs no munmap
for buffer 0, `data( 0 )` is still MAP_FAILED, not NULL. -/
theorem data_after_unmap_not_null :
    vid_capture.map (vid_capture.construct 4) world_mmap_fails
      = Res.ok () pool_mmap_failed world_after_mmap_failed ∧
    vid_capture.data pool_mmap_failed 0 = MAP_FAILED ∧
    vid_capture.data (vid_capture.unmap pool_mmap_failed world_after_mmap_failed).1 0
      = MAP_FAILED ∧
    MAP_FAILED ≠ NULL ∧
    (vid_capture.unmap pool_mmap_failed world_after_mmap_failed).2.log
      = world_after_mmap_failed.log ++
          [Event.munmap 0x7f0000100000 614400, Event.munmap 0x7f0000200000 614400,
           Event.munmap 0x7f0000300000 614400] := by
  refine ⟨?_, ?_, ?_, ?_, ?_⟩ <;> decide

/-- C8, as stated, fails: `init()` succeeds on a driver that reports a
65536 x 32768 frame with 131072 bytes per line and image size 0; the product
131072 * 32768 is 2^32, which wraps to 0 in `unsigned int`, so the stored image
size stays 0, below bytes-per-line times height. -/
theorem init_clamp_wraps :
    vid_capture.init (vid_capture.construct 4) world_huge_frame 640 480
      = Res.ok ()
          { vid_capture.construct 4 with
            fmt := { type := V4L2_BUF_TYPE_VIDEO_CAPTURE,
                     pix := { width := 65536, height := 32768,
                              pixelformat := V4L2_PIX_FMT_YUYV,
                              field := V4L2_FIELD_INTERLACED,
                              bytesperline := 131072, sizeimage := 0 } } }
          { World.quiet with
            log := [Event.VIDIOC_QUERYCAP, Event.VIDIOC_CROPCAP,
                    Event.VIDIOC_S_FMT 640 480 V4L2_PIX_FMT_YUYV V4L2_FIELD_INTERLACED] } ∧
    (65536 : Nat) < 4294967296 ∧ (32768 : Nat) < 4294967296 ∧
    (131072 : Nat) < 4294967296 ∧
    ¬ ((0 : Nat) ≥ 131072 * 32768) := by
  refine ⟨?_, ?_, ?_, ?_, ?_⟩ <;> decide

/-- C8, amended. After `init()` succeeds, whatever width, height, bytes per
line and image size the driver reported, the stored width and height are the
reported ones, the stored bytes per line is at least 2 * width modulo 2^32 and
the stored image size at least bytes-per-line * height modulo 2^32; hence when
2 * width and bytes-per-line * height are below 2^32 the stored descriptor has
bytes-per-line >= 2 * width and size >= bytes-per-line * height. Clamping is
upward only, and a reported value that meets its minimum is stored unchanged. -/
theorem init_format_invariant (s : vid_capture) (w : World) (wd ht : Int)
    (cap : Ret Nat) (caprest : List (Ret Nat))
    (cc : Ret Unit) (ccrest : List (Ret Unit))
    (f : Ret v4l2_pix_format) (frest : List (Ret v4l2_pix_format))
    (hcap : served w.querycap = cap :: caprest) (hcr : cap.r ≠ -1)
    (hvc : Nat.land cap.out V4L2_CAP_VIDEO_CAPTURE ≠ 0)
    (hst : Nat.land cap.out V4L2_CAP_STREAMING ≠ 0)
    (hcc : served w.cropcap = cc :: ccrest)
    (hsc : cc.r = 0 → served w.s_crop ≠ [])
    (hf : served w.s_fmt = f :: frest) (hfr : f.r ≠ -1)
    (hpf : f.out.pixelformat = V4L2_PIX_FMT_YUYV) :
    ∃ s1 w1, s.init w wd ht = Res.ok () s1 w1 ∧
      s1.fmt.pix.width = f.out.width ∧ s1.fmt.pix.height = f.out.height ∧
      s1.fmt.pix.bytesperline ≥ (2 * s1.fmt.pix.width) % 4294967296 ∧
      s1.fmt.pix.sizeimage ≥ (s1.fmt.pix.bytesperline * s1.fmt.pix.height) % 4294967296 ∧
      (2 * s1.fmt.pix.width < 4294967296 →
        s1.fmt.pix.bytesperline ≥ 2 * s1.fmt.pix.width) ∧
      (s1.fmt.pix.bytesperline * s1.fmt.pix.height < 4294967296 →
        s1.fmt.pix.sizeimage ≥ s1.fmt.pix.bytesperline * s1.fmt.pix.height) ∧
      s1.fmt.pix.bytesperline ≥ f.out.bytesperline ∧
      s1.fmt.pix.sizeimage ≥ f.out.sizeimage ∧
      (f.out.bytesperline ≥ 2 * f.out.width →
        s1.fmt.pix.bytesperline = f.out.bytesperline) ∧
      (f.out.sizeimage ≥ s1.fmt.pix.bytesperline * f.out.height →
        s1.fmt.pix.sizeimage = f.out.sizeimage) := by
  obtain ⟨w1, h⟩ := init_ok s w wd ht cap caprest cc ccrest f frest
    hcap hcr hvc hst hcc hsc hf hfr hpf
  refine ⟨_, w1, h, rfl, rfl, ?_⟩
  simp only [paranoia]
  have hm1 := Nat.mod_le (f.out.width * 2) 4294967296
  have hm1lt : (f.out.width * 2) % 4294967296 < 4294967296 := Nat.mod_lt _ (by norm_num)
  have hcomm : 2 * f.out.width = f.out.width * 2 := Nat.mul_comm _ _
  rw [hcomm]
  generalize hmin1 : (f.out.width * 2) % 4294967296 = min1 at *
  generalize hbpl : (if f.out.bytesperline < min1 then min1 else f.out.bytesperline) = bpl
  have hb1 : bpl ≥ min1 := by
    rw [← hbpl]; split <;> omega
  have hb2 : bpl ≥ f.out.bytesperline := by
    rw [← hbpl]; split <;> omega
  have hb3 : f.out.bytesperline ≥ min1 → bpl = f.out.bytesperline := by
    intro hge; rw [← hbpl]; split <;> omega
  have hm2 := Nat.mod_le (bpl * f.out.height) 4294967296
  generalize hprod : bpl * f.out.height = prod at *
  have hmodeq : prod < 4294967296 → prod % 4294967296 = prod :=
    fun hlt => Nat.mod_eq_of_lt hlt
  generalize hmin2 : prod % 4294967296 = min2 at *
  generalize hsize : (if f.out.sizeimage < min2 then min2 else f.out.sizeimage) = size
  have hs1 : size ≥ min2 := by
    rw [← hsize]; split <;> omega
  have hs2 : size ≥ f.out.sizeimage := by
    rw [← hsize]; split <;> omega
  have hs3 : f.out.sizeimage ≥ min2 → size = f.out.sizeimage := by
    intro hge; rw [← hsize]; split <;> omega
  refine ⟨hb1, hs1, ?_, ?_, hb2, hs2, ?_, ?_⟩
  · intro hlt
    have : min1 = f.out.width * 2 := by
      rw [← hmin1]; exact Nat.mod_eq_of_lt hlt
    omega
  · intro hlt
    have := hmodeq hlt
    omega
  · intro hge
    exact hb3 (by omega)
  · intro hge
    exact hs3 (by omega)

/-- C8, amended, at a concrete input: the driver accepts 640 x 480 and reports
0 for both sizes; `init()` stores 1280 bytes per line and 614400 bytes per frame. -/
theorem init_format_invariant_witness :
    ∃ s1 w1, vid_capture.init (vid_capture.construct 4) world_vga 640 480 = Res.ok () s1 w1 ∧
      s1.fmt.pix.width = 640 ∧ s1.fmt.pix.height = 480 ∧
      s1.fmt.pix.bytesperline ≥ (2 * s1.fmt.pix.width) % 4294967296 ∧
      s1.fmt.pix.sizeimage ≥ (s1.fmt.pix.bytesperline * s1.fmt.pix.height) % 4294967296 ∧
      (2 * s1.fmt.pix.width < 4294967296 →
        s1.fmt.pix.bytesperline ≥ 2 * s1.fmt.pix.width) ∧
      (s1.fmt.pix.bytesperline * s1.fmt.pix.height < 4294967296 →
        s1.fmt.pix.sizeimage ≥ s1.fmt.pix.bytesperline * s1.fmt.pix.height) ∧
      s1.fmt.pix.bytesperline ≥ 0 ∧
      s1.fmt.pix.sizeimage ≥ 0 ∧
      (0 ≥ 2 * 640 → s1.fmt.pix.bytesperline = 0) ∧
      (0 ≥ s1.fmt.pix.bytesperline * 480 → s1.fmt.pix.sizeimage = 0) :=
  init_format_invariant (vid_capture.construct 4) world_vga 640 480
    (ok_ret (V4L2_CAP_VIDEO_CAPTURE + V4L2_CAP_STREAMING)) []
    (ok_ret ()) []
    (ok_ret { width := 640, height := 480, pixelformat := V4L2_PIX_FMT_YUYV,
              field := V4L2_FIELD_INTERLACED, bytesperline := 0, sizeimage := 0 }) []
    (by decide) (by decide) (by decide) (by decide) (by decide) (by decide) (by decide)
    (by decide) (by decide)

/-- C1. In one tick of the acquisition section of `display()` (`wait()`
returns, EINTR outcomes retried), when `get()` hands out the frames f1..fk,
k >= 1, each an index below `n_buffers`, and then finds no frame (EAGAIN),
the tick has made exactly one `memcpy`: from `data( fk )`, the buffer dequeued
last, with `bytesperframe()` bytes; no other buffer is copied. The tick ends
normally, or with exit status 1 when the re-queue of fk itself is rejected. (The
re-queue requests of f1..f(k-1) succeed, or the later frames would not have
been dequeued.) -/
theorem display_copies_latest (s : vid_capture) (w : World)
    (sel : Ret Unit) (selrest : List (Ret Unit))
    (init : List (Ret Nat)) (last e : Ret Nat) (rest : List (Ret Nat))
    (ys : List (Ret Unit)) (y : Ret Unit) (yrest : List (Ret Unit))
    (hwf : s.wf)
    (hsel : served w.select = sel :: selrest) (hselr : sel.r ≠ -1)
    (hdq : served w.dqbuf = (init ++ [last]) ++ e :: rest)
    (hok : ∀ x ∈ init ++ [last], x.r ≠ -1 ∧ x.out < s.n_buffers)
    (her : e.r = -1) (hee : e.errno = EAGAIN)
    (hq : served w.qbuf = ys ++ y :: yrest) (hyl : ys.length = init.length)
    (hyok : ∀ y1 ∈ ys, y1.r ≠ -1) :
    ∃ w1, display s w =
        (if y.r = -1 then Res.fatal 1 Diag.errno_VIDIOC_QBUF s w1 else Res.ok () s w1) ∧
      copies w1.log = copies w.log ++
        [((last.out : Int), vid_capture.data s (last.out : Int),
          vid_capture.bytesperframe s)] := by
  obtain ⟨x0, xs, hx⟩ : ∃ x0 xs, init ++ [last] = x0 :: xs := by
    cases init with
    | nil => exact ⟨last, [], rfl⟩
    | cons a l => exact ⟨a, l ++ [last], rfl⟩
  have hlen : xs.length = init.length := by
    have := congrArg List.length hx
    simp at this
    omega
  rw [hx] at hdq hok
  obtain ⟨w1, k0, k1, _⟩ := display_spec s w sel selrest x0 xs e rest ys y yrest hwf
    hsel hselr hdq hok her hee hq (by omega) hyok
  refine ⟨w1, k0, ?_⟩
  rw [k1, getLastD_snoc (fun x : Ret Nat => (x.out : Int)) init last x0 xs hx]

/-- C1 at a concrete input: frames 0 then 1 are queued before the tick; the
only `memcpy` reads buffer 1. -/
theorem display_copies_latest_witness :
    ∃ w1, display pool_vga world_two_frames = Res.ok () pool_vga w1 ∧
      copies w1.log = [(1, 0x7f0000100000, 614400)] :=
  display_copies_latest pool_vga world_two_frames
    { r := 1, errno := 0, out := () } []
    [ok_ret 0] (ok_ret 1) (err_ret EAGAIN 0) []
    [ok_ret ()] (ok_ret ()) []
    (by decide) (by decide) (by decide) (by decide) (by decide) (by decide) (by decide)
    (by decide) (by decide) (by decide)

/-- C10. In one tick of the acquisition section of `display()` (`wait()`
returns, EINTR outcomes retried), when `get()` hands out the frames f1..fk,
k >= 1, each an index below `n_buffers`, and then finds no frame (EAGAIN),
the tick has made exactly one `memcpy` and exactly k calls of `release()`,
whose arguments are f1..fk in dequeue order. The tick ends normally, or with
exit status 1 when the re-queue of fk itself is rejected. -/
theorem display_releases_each (s : vid_capture) (w : World)
    (sel : Ret Unit) (selrest : List (Ret Unit))
    (init : List (Ret Nat)) (last e : Ret Nat) (rest : List (Ret Nat))
    (ys : List (Ret Unit)) (y : Ret Unit) (yrest : List (Ret Unit))
    (hwf : s.wf)
    (hsel : served w.select = sel :: selrest) (hselr : sel.r ≠ -1)
    (hdq : served w.dqbuf = (init ++ [last]) ++ e :: rest)
    (hok : ∀ x ∈ init ++ [last], x.r ≠ -1 ∧ x.out < s.n_buffers)
    (her : e.r = -1) (hee : e.errno = EAGAIN)
    (hq : served w.qbuf = ys ++ y :: yrest) (hyl : ys.length = init.length)
    (hyok : ∀ y1 ∈ ys, y1.r ≠ -1) :
    ∃ w1 c, display s w =
        (if y.r = -1 then Res.fatal 1 Diag.errno_VIDIOC_QBUF s w1 else Res.ok () s w1) ∧
      copies w1.log = copies w.log ++ [c] ∧
      releases w1.log = releases w.log ++ (init ++ [last]).map (fun x => (x.out : Int)) ∧
      (releases w1.log).length = (releases w.log).length + (init.length + 1) := by
  obtain ⟨x0, xs, hx⟩ : ∃ x0 xs, init ++ [last] = x0 :: xs := by
    cases init with
    | nil => exact ⟨last, [], rfl⟩
    | cons a l => exact ⟨a, l ++ [last], rfl⟩
  have hlen : xs.length = init.length := by
    have := congrArg List.length hx
    simp at this
    omega
  rw [hx] at hdq hok
  obtain ⟨w1, k0, k1, k2⟩ := display_spec s w sel selrest x0 xs e rest ys y yrest hwf
    hsel hselr hdq hok her hee hq (by omega) hyok
  refine ⟨w1, _, k0, k1, ?_, ?_⟩
  · rw [k2, hx]
  · rw [k2]
    simp
    omega

/-- C10 at a concrete input, k = 2: frames 0 then 1 are queued before the
tick; there is one `memcpy` and there are two `release()` calls, for 0 and 1. -/
theorem display_releases_each_witness :
    ∃ w1 c, display pool_vga world_two_frames = Res.ok () pool_vga w1 ∧
      copies w1.log = [c] ∧
      releases w1.log = [0, 1] ∧
      (releases w1.log).length = 2 :=
  display_releases_each pool_vga world_two_frames
    { r := 1, errno := 0, out := () } []
    [ok_ret 0] (ok_ret 1) (err_ret EAGAIN 0) []
    [ok_ret ()] (ok_ret ()) []
    (by decide) (by decide) (by decide) (by decide) (by decide) (by decide) (by decide)
    (by decide) (by decide) (by decide)

/-- C11. When `select` times out (returns 0, after any EINTR outcomes have
been retried) and the first `get()` of the tick finds no frame (EAGAIN),
`wait()` returns false, `get()` returns -1, and the acquisition section of
`display()` ends normally without entering its loop: the log gains the
`select` calls and one VIDIOC_DQBUF only, so there is no `memcpy`, no
`release()` call and no VIDIOC_QBUF, and the VIDIOC_QBUF script is untouched. -/
theorem display_no_frame (s : vid_capture) (w : World)
    (pre : List (Ret Unit)) (sel : Ret Unit) (rest : List (Ret Unit))
    (dpre : List (Ret Nat)) (e : Ret Nat) (drest : List (Ret Nat))
    (hsel : w.select = pre ++ sel :: rest)
    (hpre : ∀ x ∈ pre, x.r = -1 ∧ x.errno = EINTR)
    (hr : sel.r = 0)
    (hdq : w.dqbuf = dpre ++ e :: drest)
    (hdpre : ∀ x ∈ dpre, x.r = -1 ∧ x.errno = EINTR)
    (her : e.r = -1) (hee : e.errno = EAGAIN) :
    s.wait w = Res.ok false s
      { w with select := rest,
               log := w.log ++ List.replicate (pre.length + 1) (Event.select 2 0) } ∧
    display s w = Res.ok () s
      { w with select := rest, dqbuf := drest,
               log := (w.log ++ List.replicate (pre.length + 1) (Event.select 2 0)) ++
                 [Event.VIDIOC_DQBUF] } ∧
    copies ((w.log ++ List.replicate (pre.length + 1) (Event.select 2 0)) ++
      [Event.VIDIOC_DQBUF]) = copies w.log ∧
    releases ((w.log ++ List.replicate (pre.length + 1) (Event.select 2 0)) ++
      [Event.VIDIOC_DQBUF]) = releases w.log := by
  have hsx : ¬ (sel.r = -1 ∧ sel.errno = EINTR) := by
    intro h; rw [hr] at h; exact absurd h.1 (by decide)
  have hn1 : ¬ sel.r = -1 := by rw [hr]; decide
  have hw : s.wait w = Res.ok false s
      { w with select := rest,
               log := w.log ++ List.replicate (pre.length + 1) (Event.select 2 0) } := by
    unfold vid_capture.wait
    rw [hsel, wait_loop_exact s w sel rest hsx pre w.log hpre, if_neg hn1, if_pos hr]
  have hex : ¬ (e.r = -1 ∧ e.errno = EINTR) := by
    intro h; rw [hee] at h; exact absurd h.2 (by decide)
  have hxi : xioctl (dpre ++ e :: drest) = some (e, drest) :=
    xioctl_append dpre e drest hdpre hex
  refine ⟨hw, ?_, ?_, ?_⟩
  · simp only [display, hw, vid_capture.get, hdq, hxi, her, hee, if_true]
    exact display_loop_done _ _ _ _ (by decide)
  · simp [copies_append, copies_selects, copies]
  · simp [releases_append, releases_selects, releases]

/-- C11 at a concrete input: one interrupted `select`, then a timeout, and no
frame queued. -/
theorem display_no_frame_witness :
    vid_capture.wait pool_vga world_timeout = Res.ok false pool_vga
      { World.quiet with dqbuf := [err_ret EAGAIN 0],
                         log := [Event.select 2 0, Event.select 2 0] } ∧
    display pool_vga world_timeout = Res.ok () pool_vga
      { World.quiet with
        log := [Event.select 2 0, Event.select 2 0, Event.VIDIOC_DQBUF] } ∧
    copies [Event.select 2 0, Event.select 2 0, Event.VIDIOC_DQBUF] = [] ∧
    releases [Event.select 2 0, Event.select 2 0, Event.VIDIOC_DQBUF] = [] :=
  display_no_frame pool_vga world_timeout [err_ret EINTR ()] (ok_ret ()) []
    [] (err_ret EAGAIN 0) []
    rfl (by decide) (by decide) rfl (by decide) (by decide) (by decide)

/-- C12. For every script of `select` outcomes made of EINTR failures followed
by one outcome that is not an EINTR failure, with return value `r` (at least
-1, as `select` returns), `wait()` calls `select` once per outcome, each time
with the timeout 2 s 0 us, and its result depends on the last outcome only: it
returns true exactly when r > 0, returns false exactly when r = 0, and exits
with status 1 exactly when r = -1 (a failure other than EINTR). -/
theorem wait_result (s : vid_capture) (w : World)
    (pre : List (Ret Unit)) (x : Ret Unit) (rest : List (Ret Unit))
    (hsel : w.select = pre ++ x :: rest)
    (hpre : ∀ e ∈ pre, e.r = -1 ∧ e.errno = EINTR)
    (hx : ¬ (x.r = -1 ∧ x.errno = EINTR))
    (hrange : -1 ≤ x.r) :
    (0 < x.r → s.wait w = Res.ok true s
      { w with select := rest,
               log := w.log ++ List.replicate (pre.length + 1) (Event.select 2 0) }) ∧
    (x.r = 0 → s.wait w = Res.ok false s
      { w with select := rest,
               log := w.log ++ List.replicate (pre.length + 1) (Event.select 2 0) }) ∧
    (x.r = -1 → s.wait w = Res.fatal 1 Diag.errno_select s
      { w with select := rest,
               log := w.log ++ List.replicate (pre.length + 1) (Event.select 2 0) }) ∧
    ((∃ s1 w1, s.wait w = Res.ok true s1 w1) ↔ 0 < x.r) ∧
    ((∃ s1 w1, s.wait w = Res.ok false s1 w1) ↔ x.r = 0) ∧
    ((∃ st d s1 w1, s.wait w = Res.fatal st d s1 w1) ↔ x.r = -1) := by
  have hw := wait_loop_exact s w x rest hx pre w.log hpre
  rw [← hsel] at hw
  by_cases h1 : x.r = -1
  · rw [if_pos h1] at hw
    have hw1 : s.wait w = Res.fatal 1 Diag.errno_select s
        { w with select := rest,
                 log := w.log ++ List.replicate (pre.length + 1) (Event.select 2 0) } := hw
    refine ⟨fun h => by omega, fun h => by omega, fun _ => hw1, ?_, ?_, ?_⟩
    · constructor
      · rintro ⟨s1, w1, h⟩; rw [hw1] at h; cases h
      · intro h; omega
    · constructor
      · rintro ⟨s1, w1, h⟩; rw [hw1] at h; cases h
      · intro h; omega
    · exact ⟨fun _ => h1, fun _ => ⟨_, _, _, _, hw1⟩⟩
  · by_cases h0 : x.r = 0
    · rw [if_neg h1, if_pos h0] at hw
      have hw1 : s.wait w = Res.ok false s
          { w with select := rest,
                   log := w.log ++ List.replicate (pre.length + 1) (Event.select 2 0) } := hw
      refine ⟨fun h => by omega, fun _ => hw1, fun h => by omega, ?_, ?_, ?_⟩
      · constructor
        · rintro ⟨s1, w1, h⟩; rw [hw1] at h; cases h
        · intro h; omega
      · exact ⟨fun _ => h0, fun _ => ⟨_, _, hw1⟩⟩
      · constructor
        · rintro ⟨st, d, s1, w1, h⟩; rw [hw1] at h; cases h
        · intro h; omega
    · rw [if_neg h1, if_neg h0] at hw
      have hw1 : s.wait w = Res.ok true s
          { w with select := rest,
                   log := w.log ++ List.replicate (pre.length + 1) (Event.select 2 0) } := hw
      have hpos : 0 < x.r := by omega
      refine ⟨fun _ => hw1, fun h => by omega, fun h => by omega, ?_, ?_, ?_⟩
      · exact ⟨fun _ => hpos, fun _ => ⟨_, _, hw1⟩⟩
      · constructor
        · rintro ⟨s1, w1, h⟩; rw [hw1] at h; cases h
        · intro h; omega
      · constructor
        · rintro ⟨st, d, s1, w1, h⟩; rw [hw1] at h; cases h
        · intro h; omega

/-- C12 at a concrete input: two interrupted calls, then the device is ready;
`wait()` returns true after three `select` calls. -/
theorem wait_result_witness :
    vid_capture.wait pool_vga world_ready_after_signals = Res.ok true pool_vga
      { World.quiet with
        log := [Event.select 2 0, Event.select 2 0, Event.select 2 0] } :=
  (wait_result pool_vga world_ready_after_signals
    [err_ret EINTR (), err_ret EINTR ()] { r := 1, errno := 0, out := () } []
    rfl (by decide) (by decide) (by decide)).1 (by decide)

/-- C13. With an outcome scripted for every request `init()` makes,
`init( width, height )` exits with status 1 exactly when the capability query
fails, the video-capture bit is absent, the streaming bit is absent, the
set-format request fails, or the returned pixel layout is not YUYV; otherwise
it succeeds and stores the clamped format the driver returned. Another world
with the same capability and set-format outcomes but any outcome of
VIDIOC_CROPCAP and VIDIOC_S_CROP fails in the same cases and yields the same
object. -/
theorem init_fails_iff (s : vid_capture) (w : World) (wd ht : Int)
    (cap : Ret Nat) (caprest : List (Ret Nat))
    (cc : Ret Unit) (ccrest : List (Ret Unit))
    (f : Ret v4l2_pix_format) (frest : List (Ret v4l2_pix_format))
    (hcap : served w.querycap = cap :: caprest)
    (hcc : served w.cropcap = cc :: ccrest)
    (hsc : cc.r = 0 → served w.s_crop ≠ [])
    (hf : served w.s_fmt = f :: frest) :
    ((∃ d s1 w1, s.init w wd ht = Res.fatal 1 d s1 w1) ↔ init_rejects cap f) ∧
    ((∃ w1, s.init w wd ht =
        Res.ok () { s with fmt := { type := V4L2_BUF_TYPE_VIDEO_CAPTURE,
                                    pix := paranoia f.out } } w1) ↔ ¬ init_rejects cap f) ∧
    (∀ (w2 : World) (cc2 : Ret Unit) (ccrest2 : List (Ret Unit)),
      served w2.querycap = served w.querycap → served w2.s_fmt = served w.s_fmt →
      served w2.cropcap = cc2 :: ccrest2 → (cc2.r = 0 → served w2.s_crop ≠ []) →
      ((∃ d s1 w1, s.init w2 wd ht = Res.fatal 1 d s1 w1) ↔
        (∃ d s1 w1, s.init w wd ht = Res.fatal 1 d s1 w1)) ∧
      (∀ s1, (∃ w1, s.init w2 wd ht = Res.ok () s1 w1) ↔
        (∃ w1, s.init w wd ht = Res.ok () s1 w1))) := by
  have key : ∀ (w0 : World) (c0 : Ret Unit) (c0rest : List (Ret Unit)),
      served w0.querycap = cap :: caprest → served w0.cropcap = c0 :: c0rest →
      (c0.r = 0 → served w0.s_crop ≠ []) → served w0.s_fmt = f :: frest →
      ((∃ d s1 w1, s.init w0 wd ht = Res.fatal 1 d s1 w1) ↔ init_rejects cap f) ∧
      (∀ s1, (∃ w1, s.init w0 wd ht = Res.ok () s1 w1) ↔
        (¬ init_rejects cap f ∧
          s1 = { s with fmt := { type := V4L2_BUF_TYPE_VIDEO_CAPTURE,
                                 pix := paranoia f.out } })) := by
    intro w0 c0 c0rest h1 h2 h3 h4
    obtain ⟨d, sa, w4, h⟩ := init_outcome s w0 wd ht cap caprest c0 c0rest f frest h1 h2 h3 h4
    by_cases hb : init_rejects cap f
    · rw [if_pos hb] at h
      refine ⟨⟨fun _ => hb, fun _ => ⟨d, sa, w4, h⟩⟩, ?_⟩
      intro s1
      constructor
      · rintro ⟨w1, h5⟩; rw [h] at h5; cases h5
      · rintro ⟨h5, _⟩; exact absurd hb h5
    · rw [if_neg hb] at h
      refine ⟨⟨?_, fun h5 => absurd h5 hb⟩, ?_⟩
      · rintro ⟨d1, s1, w1, h5⟩; rw [h] at h5; cases h5
      · intro s1
        constructor
        · rintro ⟨w1, h5⟩
          rw [h] at h5
          injection h5 with _ h6 _
          exact ⟨hb, h6.symm⟩
        · rintro ⟨_, h5⟩
          exact ⟨w4, by rw [h5]; exact h⟩
  obtain ⟨k1, k2⟩ := key w cc ccrest hcap hcc hsc hf
  refine ⟨k1, ?_, ?_⟩
  · rw [k2]
    exact ⟨fun h => h.1, fun h => ⟨h, rfl⟩⟩
  · intro w2 cc2 ccrest2 e1 e2 h2 h3
    obtain ⟨m1, m2⟩ := key w2 cc2 ccrest2 (by rw [e1]; exact hcap) h2 h3 (by rw [e2]; exact hf)
    refine ⟨by rw [m1, k1], ?_⟩
    intro s1
    rw [m2 s1, k2 s1]

/-- C13 at a concrete input: on the 640 x 480 device `init()` succeeds and
stores 1280 bytes per line and 614400 bytes per frame, and it does so too when
the driver has no crop support. -/
theorem init_fails_iff_witness :
    (∃ w1, vid_capture.init (vid_capture.construct 4) world_vga 640 480 =
      Res.ok ()
        { vid_capture.construct 4 with
          fmt := { type := V4L2_BUF_TYPE_VIDEO_CAPTURE,
                   pix := { width := 640, height := 480,
                            pixelformat := V4L2_PIX_FMT_YUYV,
                            field := V4L2_FIELD_INTERLACED,
                            bytesperline := 1280, sizeimage := 614400 } } } w1) ∧
    (∀ s1, (∃ w1, vid_capture.init (vid_capture.construct 4) world_vga_no_crop 640 480
        = Res.ok () s1 w1) ↔
      (∃ w1, vid_capture.init (vid_capture.construct 4) world_vga 640 480
        = Res.ok () s1 w1)) :=
  ⟨((init_fails_iff (vid_capture.construct 4) world_vga 640 480
      (ok_ret (V4L2_CAP_VIDEO_CAPTURE + V4L2_CAP_STREAMING)) []
      (ok_ret ()) []
      (ok_ret { width := 640, height := 480, pixelformat := V4L2_PIX_FMT_YUYV,
                field := V4L2_FIELD_INTERLACED, bytesperline := 0, sizeimage := 0 }) []
      (by decide) (by decide) (by decide) (by decide)).2.1).2 (by decide),
   ((init_fails_iff (vid_capture.construct 4) world_vga 640 480
      (ok_ret (V4L2_CAP_VIDEO_CAPTURE + V4L2_CAP_STREAMING)) []
      (ok_ret ()) []
      (ok_ret { width := 640, height := 480, pixelformat := V4L2_PIX_FMT_YUYV,
                field := V4L2_FIELD_INTERLACED, bytesperline := 0, sizeimage := 0 }) []
      (by decide) (by decide) (by decide) (by decide)).2.2
      world_vga_no_crop (err_ret EINVAL ()) [] (by decide) (by decide) (by decide)
      (by decide)).2⟩

/-- C14. The mapped buffers of a pool are the indices below `n_buffers` whose
entry has a non-zero length, taken in ascending order. When the driver accepts
a queue request for each of them, `start()` has issued exactly these
VIDIOC_QBUF requests, in that order, each with index `i`, the capture type and
mmap memory, followed by one VIDIOC_STREAMON, and it returns, or exits with
status 1 when the stream-on is rejected. When the driver rejects one of the
queue requests, `start()` exits with status 1 right after it; the log then
holds the queue requests up to the rejected one and no VIDIOC_STREAMON. -/
theorem start_ordering (s : vid_capture) (w : World) :
    (∀ i, i ∈ mapped_indices s ↔
      i < s.n_buffers ∧ (s.buffers.getD i zero_buffer).length > 0) ∧
    List.Pairwise (fun a b => a < b) (mapped_indices s) ∧
    (∀ i, (fresh_info i).index = i ∧ (fresh_info i).type = V4L2_BUF_TYPE_VIDEO_CAPTURE ∧
      (fresh_info i).memory = V4L2_MEMORY_MMAP) ∧
    (∀ (ys yrest : List (Ret Unit)) (so : Ret Unit) (sorest : List (Ret Unit)),
      served w.qbuf = ys ++ yrest → ys.length = (mapped_indices s).length →
      (∀ y ∈ ys, y.r ≠ -1) → served w.streamon = so :: sorest →
      ∃ s1 w1, s.start w =
          (if so.r = -1 then Res.fatal 1 Diag.errno_VIDIOC_STREAMON s1 w1
           else Res.ok () s1 w1) ∧
        w1.log = (w.log ++
          (mapped_indices s).map (fun i => Event.VIDIOC_QBUF (fresh_info i))) ++
          [Event.VIDIOC_STREAMON]) ∧
    (∀ (ys : List (Ret Unit)) (y : Ret Unit) (yrest : List (Ret Unit)),
      served w.qbuf = ys ++ y :: yrest → ys.length < (mapped_indices s).length →
      (∀ y1 ∈ ys, y1.r ≠ -1) → y.r = -1 →
      ∃ s1 w1, s.start w = Res.fatal 1 Diag.errno_VIDIOC_QBUF s1 w1 ∧
        w1.log = w.log ++
          ((mapped_indices s).take (ys.length + 1)).map
            (fun i => Event.VIDIOC_QBUF (fresh_info i)) ∧
        Event.VIDIOC_STREAMON ∉
          ((mapped_indices s).take (ys.length + 1)).map
            (fun i => Event.VIDIOC_QBUF (fresh_info i)) ∧
        w1.streamon = w.streamon) := by
  refine ⟨mem_mapped_indices s, mapped_indices_sorted s, fun i => ⟨rfl, rfl, rfl⟩, ?_, ?_⟩
  · intro ys yrest so sorest hq hl hok hso
    obtain ⟨s1, w1, k0, k1, _, k3, _⟩ :=
      start_loop_ok s.n_buffers 0 s w ys yrest hq hl hok
    obtain ⟨l1, hx, _⟩ := xioctl_served w1.streamon so sorest (by rw [k3]; exact hso)
    refine ⟨s1, { w1 with streamon := l1, log := w1.log ++ [Event.VIDIOC_STREAMON] }, ?_, ?_⟩
    · simp only [vid_capture.start, k0, hx, FAIL]
    · simp only []
      rw [k1]
      rfl
  · intro ys y yrest hq hl hok hy
    obtain ⟨s1, w1, k0, k1, k3⟩ :=
      start_loop_rejected s.n_buffers 0 s w ys y yrest hq hl hok hy
    refine ⟨s1, w1, ?_, k1, ?_, k3⟩
    · simp only [vid_capture.start, k0]
    · intro hmem
      obtain ⟨j, _, hj⟩ := List.mem_map.mp hmem
      cases hj

/-- C14 at concrete inputs: on a pool of 4 mapped buffers `start()` queues
0, 1, 2, 3 and then turns the stream on; when the second queue request is
rejected it exits after two queue requests. -/
theorem start_ordering_witness :
    (∃ s1 w1, vid_capture.start pool_vga world_start_four = Res.ok () s1 w1 ∧
      w1.log = [Event.VIDIOC_QBUF (fresh_info 0), Event.VIDIOC_QBUF (fresh_info 1),
                Event.VIDIOC_QBUF (fresh_info 2), Event.VIDIOC_QBUF (fresh_info 3),
                Event.VIDIOC_STREAMON]) ∧
    (∃ s1 w1, vid_capture.start pool_vga world_qbuf_rejected
        = Res.fatal 1 Diag.errno_VIDIOC_QBUF s1 w1 ∧
      w1.log = [Event.VIDIOC_QBUF (fresh_info 0), Event.VIDIOC_QBUF (fresh_info 1)] ∧
      Event.VIDIOC_STREAMON ∉
        [Event.VIDIOC_QBUF (fresh_info 0), Event.VIDIOC_QBUF (fresh_info 1)] ∧
      w1.streamon = [ok_ret ()]) :=
  ⟨(start_ordering pool_vga world_start_four).2.2.2.1
      [ok_ret (), ok_ret (), ok_ret (), ok_ret ()] [] (ok_ret ()) []
      (by decide) (by decide) (by decide) (by decide),
   (start_ordering pool_vga world_qbuf_rejected).2.2.2.2
      [ok_ret ()] (err_ret EINVAL ()) []
      (by decide) (by decide) (by decide) (by decide)⟩

/-- C15. For every index `i` with `i < 0` or `i >= n_buffers`, `release( i )`
returns at once: the object and the world are unchanged, so no request has
been logged and no scripted outcome consumed, whatever the driver would have
answered. -/
theorem release_invalid_noop (s : vid_capture) (w : World) (i : Int)
    (h : i < 0 ∨ i ≥ (s.n_buffers : Int)) :
    s.release w i = Res.ok () s w := by
  unfold vid_capture.release
  rw [if_pos h]

/-- C15 at concrete inputs: `release( -1 )` and `release( 4 )` on a pool of 4
buffers whose driver would reject any queue request. -/
theorem release_invalid_noop_witness :
    vid_capture.release pool_vga { World.quiet with qbuf := [err_ret EINVAL ()] } (-1)
      = Res.ok () pool_vga { World.quiet with qbuf := [err_ret EINVAL ()] } ∧
    vid_capture.release pool_vga { World.quiet with qbuf := [err_ret EINVAL ()] } 4
      = Res.ok () pool_vga { World.quiet with qbuf := [err_ret EINVAL ()] } :=
  ⟨release_invalid_noop pool_vga { World.quiet with qbuf := [err_ret EINVAL ()] } (-1)
     (by decide),
   release_invalid_noop pool_vga { World.quiet with qbuf := [err_ret EINVAL ()] } 4
     (by decide)⟩

/-- C16, as stated, fails: the pool is built for 4 buffers, the driver grants
2, `map()` and `start()` succeed, and `release( 2 )`, with 2 in
[0, n_buffers), issues a VIDIOC_QBUF whose descriptor is all zero: index 0,
not 2, and neither the capture type nor mmap memory. -/
theorem release_unmapped_descriptor :
    vid_capture.map (vid_capture.construct 4) world_grant_two_stream
      = Res.ok () pool_four_grant_two world_mapped_two_stream ∧
    vid_capture.start pool_four_grant_two world_mapped_two_stream
      = Res.ok () pool_four_streaming world_streaming_two ∧
    (0 : Int) ≤ 2 ∧ (2 : Int) < (pool_four_streaming.n_buffers : Int) ∧
    vid_capture.release pool_four_streaming world_streaming_two 2
      = Res.ok () pool_four_streaming
          { world_streaming_two with
            qbuf := [],
            log := world_streaming_two.log ++ [Event.VIDIOC_QBUF zero_info] } ∧
    zero_info.index ≠ 2 ∧ zero_info.type ≠ V4L2_BUF_TYPE_VIDEO_CAPTURE ∧
    zero_info.memory ≠ V4L2_MEMORY_MMAP := by
  refine ⟨?_, ?_, ?_, ?_, ?_, ?_, ?_, ?_⟩ <;> decide

/-- C16, amended. In every state reached by `construct( n )`, a successful
`map()` in which the driver granted `g` buffers, and a successful `start()`,
for every index `i` in [0, g) `release( i )` issues one VIDIOC_QBUF request
whose descriptor carries index `i`, the capture type and mmap memory; it
returns when the driver accepts the request and exits with status 1 when the
driver rejects it. -/
theorem release_requeues_granted (n : Nat) (w w1 w2 : World) (s1 s2 : vid_capture)
    (req : Ret Nat) (rrest : List (Ret Nat)) (y : Ret Unit) (yrest : List (Ret Unit))
    (i : Int)
    (hreq : served w.reqbufs = req :: rrest)
    (hmap : (vid_capture.construct n).map w = Res.ok () s1 w1)
    (hstart : s1.start w1 = Res.ok () s2 w2)
    (hi0 : 0 ≤ i) (hig : i < (req.out : Int))
    (hq : served w2.qbuf = y :: yrest) :
    ∃ w3 d, s2.release w2 i =
        (if y.r = -1 then Res.fatal 1 Diag.errno_VIDIOC_QBUF s2 w3 else Res.ok () s2 w3) ∧
      w3.log = w2.log ++ [Event.VIDIOC_QBUF d] ∧
      (d.index : Int) = i ∧ d.type = V4L2_BUF_TYPE_VIDEO_CAPTURE ∧
      d.memory = V4L2_MEMORY_MMAP := by
  have hlen : (vid_capture.construct n).buffers.length = (vid_capture.construct n).n_buffers := by
    simp [vid_capture.construct]
  obtain ⟨m1, m2, m3⟩ := map_inv (vid_capture.construct n) w req rrest s1 w1 hlen hreq hmap
  obtain ⟨t1, t2⟩ := start_inv s1 w1 s2 w2 hstart
  have hn : (vid_capture.construct n).n_buffers = n := rfl
  have hlt : i < (s2.n_buffers : Int) := by
    rw [t1, m1, hn]
    rw [hn] at m2
    omega
  obtain ⟨w3, k0, k1, _, _⟩ := release_any s2 w2 i y yrest hi0 hlt hq
  have hnames := t2 i.toNat (m3 i.toNat (by omega))
  refine ⟨w3, (s2.buffers.getD i.toNat zero_buffer).info, k0, k1, ?_, hnames.2.1, hnames.2.2⟩
  rw [hnames.1]
  omega

/-- C16, amended, at a concrete input: 4 buffers requested, 2 granted, mapped
and queued; `release( 1 )` re-queues buffer 1. -/
theorem release_requeues_granted_witness :
    ∃ w3 d, vid_capture.release pool_four_streaming world_streaming_two 1
        = Res.ok () pool_four_streaming w3 ∧
      w3.log = world_streaming_two.log ++ [Event.VIDIOC_QBUF d] ∧
      (d.index : Int) = 1 ∧ d.type = V4L2_BUF_TYPE_VIDEO_CAPTURE ∧
      d.memory = V4L2_MEMORY_MMAP :=
  release_requeues_granted 4 world_grant_two_stream world_mapped_two_stream
    world_streaming_two pool_four_grant_two pool_four_streaming
    (ok_ret 2) [] (ok_ret ()) [] 1
    (by decide) (by decide) (by decide) (by decide) (by decide) (by decide)

end Vidbrot
